import Mathlib

/-!
Verification of the JARVIS assistant turn pipeline (src/assistant.py and
src/JARVIS-PT2.py) against its natural-language specification.

The Python source is shallowly embedded: strings are lists of characters,
the streaming generation loop, the sentence segmenter built on
re.split with the pattern (?<=[.!?])\s+, the memory persistence function
save_memory, the command router handle_local_command, the TTS worker loop
tts_worker, and an interleaving model of the stop-flag/queue concurrency
are all translated into executable Lean definitions, and the claims are
settled as theorems about those definitions.
-/

/-! ## Basic character and string utilities (Python semantics) -/

/-- Python regex class \s on ASCII input: space, tab, newline, carriage
return, vertical tab, form feed.  This is also the set stripped by
str.strip() on such input. -/
def pyIsWs (c : Char) : Bool :=
  c = ' ' || c = '\t' || c = '\n' || c = '\r' || c = '\x0b' || c = '\x0c'

/-- Sentence-terminal punctuation of the segmenter regex: `.`, `!`, `?`. -/
def isTermPunct (c : Char) : Bool :=
  c = '.' || c = '!' || c = '?'

/-- Python str.lower() on ASCII input, characterwise. -/
def lowerStr (s : List Char) : List Char :=
  s.map Char.toLower

/-- Python str.strip(): remove leading and trailing whitespace. -/
def pyStrip (s : List Char) : List Char :=
  ((s.dropWhile pyIsWs).reverse.dropWhile pyIsWs).reverse

/-- Index of the leftmost occurrence of `n` as a contiguous substring of
`h`, if any (Python str.find / the implicit scan of the `in` operator). -/
def subIdx (h n : List Char) : Option Nat :=
  (List.range (h.length + 1)).find? (fun i => n.isPrefixOf (h.drop i))

/-- Python `n in h` on strings: contiguous-substring test. -/
def containsSub (h n : List Char) : Bool :=
  (subIdx h n).isSome

/-- String literal helper: the character list of a Lean string. -/
def strL (s : String) : List Char :=
  s.toList

/-- Python l[-n:]: the suffix of the last `n` elements (whole list when
shorter than `n`). -/
def lastN (n : Nat) (l : List α) : List α :=
  l.drop (l.length - n)

/-! ## Conversation memory (load_memory / save_memory, assistant.py
lines 114-119 and JARVIS-PT2.py lines 71-75) -/

inductive Role
  | system
  | user
  | assistant
deriving DecidableEq

structure Msg where
  role : Role
  content : List Char
deriving DecidableEq

def userMsg (c : List Char) : Msg := ⟨Role.user, c⟩

def asstMsg (c : List Char) : Msg := ⟨Role.assistant, c⟩

def sysMsg (c : List Char) : Msg := ⟨Role.system, c⟩

/-- save_memory(messages): the list written to the memory file.
Mirrors `system_messages = [m for m in messages if role == system]`,
`history = [m for m in messages if role != system][-20:]`, and
`json.dump(system_messages + history, ...)`.  The in-process `messages`
list itself is not modified by save_memory. -/
def saveMemory (messages : List Msg) : List Msg :=
  (messages.filter (fun m => m.role == Role.system)) ++
    lastN 20 (messages.filter (fun m => m.role != Role.system))

/-! ## Sentence segmentation: re.split(r'(?<=[.!?])\s+', buffer)

A match of the pattern is a maximal whitespace run whose immediately
preceding character is sentence-terminal punctuation; re.split removes
each such run and cuts the string there.  This is embedded as a
left-to-right character scanner: `cur` is the current segment (in
reversed order, so its head is the previously scanned character, i.e.
the lookbehind), and `inSep` records that the scanner is inside a
separator run. -/

structure SegState where
  segs : List (List Char)
  cur : List Char
  inSep : Bool
deriving DecidableEq

/-- Lookbehind test: is the previously scanned character terminal
punctuation? -/
def headPunct : List Char → Bool
  | [] => false
  | c :: _ => isTermPunct c

def segStep (st : SegState) (c : Char) : SegState :=
  if st.inSep then
    if pyIsWs c then st
    else ⟨st.segs, [c], false⟩
  else if pyIsWs c && headPunct st.cur then
    ⟨st.segs ++ [st.cur.reverse], [], true⟩
  else
    ⟨st.segs, c :: st.cur, false⟩

def segInit : SegState := ⟨[], [], false⟩

def segRun (s : List Char) : SegState :=
  s.foldl segStep segInit

/-- re.split(r'(?<=[.!?])\s+', s): the list of fields.  Always
nonempty (re.split never returns an empty list). -/
def splitSentences (s : List Char) : List (List Char) :=
  (segRun s).segs ++ [(segRun s).cur.reverse]

/-! ## The streaming generation loop
(stream_response_thread, assistant.py lines 912-950; JARVIS-PT2.py
lines 781-809)

Each fragment ("part") from the backend is appended to `reply` and
`buffer`; the buffer is re-split, every field but the last is given to
queue_tts, and the last field becomes the new buffer.  queue_tts strips
its argument and drops it when the stripped text is empty. -/

/-- queue_tts(text): `Some` of the stripped text when it is enqueued,
`none` when the falsy/empty check drops it. -/
def queueTTS (s : List Char) : Option (List Char) :=
  if (pyStrip s).isEmpty then none else some (pyStrip s)

structure StreamState where
  emitted : List (List Char)
  buffer : List Char
  reply : List Char
deriving DecidableEq

/-- One iteration of `for chunk in response:` after the stop-flag check:
`if not part: continue`, `reply += part`, `buffer += part`,
`sentences = re.split(...)`, queue_tts for sentences[:-1],
`buffer = sentences[-1]`. -/
def chunkStep (st : StreamState) (part : List Char) : StreamState :=
  if part.isEmpty then st
  else
    let sentences := splitSentences (st.buffer ++ part)
    ⟨st.emitted ++ sentences.dropLast.filterMap queueTTS,
      sentences.getLastD [],
      st.reply ++ part⟩

def streamInit : StreamState := ⟨[], [], []⟩

/-- The fragment loop.  `stopAfter = some k` models the stop flag being
observed set at the check preceding the (k+1)-st fragment: the loop
breaks having consumed only the first k fragments.  `stopAfter = none`
is an uncancelled turn. -/
def streamRun (frags : List (List Char)) (stopAfter : Option Nat) : StreamState :=
  (match stopAfter with
    | none => frags
    | some k => frags.take k).foldl chunkStep streamInit

/-- All texts handed to queue_tts by one generative turn, in order:
the per-sentence emissions plus, for an uncancelled turn only
(`if buffer.strip() and not stop_flag.is_set()`), the flushed trailing
remainder. -/
def streamEmitted (frags : List (List Char)) (stopAfter : Option Nat) :
    List (List Char) :=
  let st := streamRun frags stopAfter
  match stopAfter with
  | none =>
      st.emitted ++ (match queueTTS st.buffer with
        | none => []
        | some t => [t])
  | some _ => st.emitted

/-- The tail of stream_response_thread: `memory.append(user)`,
`memory.append(assistant reply)`, `save_memory(memory)` — executed
unconditionally after the loop, cancelled or not.  Returns the stream
state, the in-process memory list afterwards, and the list written to
the memory file. -/
def streamResponseThread (mem : List Msg) (userInput : List Char)
    (frags : List (List Char)) (stopAfter : Option Nat) :
    StreamState × List Msg × List Msg :=
  let st := streamRun frags stopAfter
  let mem2 := mem ++ [userMsg userInput, asstMsg st.reply]
  (st, mem2, saveMemory mem2)

/-- Invariant: while inside a separator run the current segment is
empty. -/
def SepInv (st : SegState) : Prop :=
  st.inSep = true → st.cur = []

/-- The no-internal-separator relation between adjacent characters of a
segment: terminal punctuation is never immediately followed by
whitespace. -/
def okPair (a b : Char) : Prop :=
  ¬(isTermPunct a = true ∧ pyIsWs b = true)

/-- The in-process memory list after `n` completed generative turns,
starting from a single system message: each turn runs
stream_response_thread, which appends the user and assistant entries to
the list (save_memory trims only the persisted file, never the list
itself). -/
def afterTurns : Nat → List Msg
  | 0 => [sysMsg (strL ("sys"))]
  | n + 1 =>
      (streamResponseThread (afterTurns n) (strL ("hi")) [strL ("ok")] none).2.1

/-! ## The command router (handle_local_command, assistant.py lines
374-737; the confirmation stage of JARVIS-PT2.py lines 257-298)

External side effects (os.system, pyautogui, webbrowser, serial writes,
file writes) are recorded as `Effect` values; result strings whose
content depends on runtime data (clock, psutil readings) are modelled
as tagged `Reply` values.  The conditions deciding which branch fires
are translated exactly, including the regular expressions. -/

/-- Python str.split(' ', 1). -/
def splitSpace1 (h : List Char) : List (List Char) :=
  let a := h.takeWhile (fun c => c != ' ')
  match h.dropWhile (fun c => c != ' ') with
  | [] => [h]
  | _ :: t => [a, t]

/-- Python str.split(' ', 2). -/
def splitSpace2 (h : List Char) : List (List Char) :=
  let a := h.takeWhile (fun c => c != ' ')
  match h.dropWhile (fun c => c != ' ') with
  | [] => [h]
  | _ :: t => a :: splitSpace1 t

/-- Python str.split() with no argument: fields separated by whitespace
runs, with no empty fields. -/
def splitWsList (h : List Char) : List (List Char) :=
  match hh : h.dropWhile pyIsWs with
  | [] => []
  | c :: t =>
    (c :: t.takeWhile (fun x => !pyIsWs x)) ::
      splitWsList (t.dropWhile (fun x => !pyIsWs x))
termination_by h.length
decreasing_by
  have h1 : (h.dropWhile pyIsWs).length ≤ h.length :=
    (List.dropWhile_sublist pyIsWs).length_le
  rw [hh] at h1
  have h2 : (t.dropWhile (fun x => !pyIsWs x)).length ≤ t.length :=
    (List.dropWhile_sublist _).length_le
  simp only [List.length_cons] at h1
  omega

/-- Python str.replace(old, "") — delete every (non-overlapping,
left-to-right) occurrence of `n`. -/
def delAllSub (n : List Char) (h : List Char) : List Char :=
  if hpre : n ≠ [] ∧ n.isPrefixOf h then
    delAllSub n (h.drop n.length)
  else
    match h with
    | [] => []
    | c :: t => c :: delAllSub n t
termination_by h.length
decreasing_by
  · have hn : 0 < n.length := List.length_pos.mpr hpre.1
    have hle : n.length ≤ h.length :=
      (List.isPrefixOf_iff_prefix.mp hpre.2).length_le
    rw [List.length_drop]
    omega
  · simp only [List.length_cons]
    omega

/-- Numeric value of a digit string. -/
def digitsVal (l : List Char) : Nat :=
  l.foldl (fun a c => a * 10 + (c.toNat - 48)) 0

/-- Matching of `(\d{1,3})\s*%` at position `i`: the regex engine tries
the greedy digit count 3, 2, 1 and then requires optional whitespace
followed by a percent sign. -/
def percentAt (s : List Char) (i : Nat) : Option Nat :=
  ([3, 2, 1] : List Nat).findSome? (fun L =>
    let ds := (s.drop i).take L
    if ds.length = L && ds.all Char.isDigit &&
        (((s.drop (i + L)).dropWhile pyIsWs).head? == some '%') then
      some (digitsVal ds)
    else none)

/-- re.search(r"(\d{1,3})\s*%", s): leftmost match. -/
def percentMatch (s : List Char) : Option Nat :=
  (List.range (s.length + 1)).findSome? (fun i => percentAt s i)

/-- Parse `-?\d+` at the start of `t` (maximal digit run), returning the
value and the rest. -/
def intAt (t : List Char) : Option (Int × List Char) :=
  let p := match t with
    | '-' :: r => (true, r)
    | _ => (false, t)
  let ds := p.2.takeWhile Char.isDigit
  if ds.isEmpty then none
  else some ((if p.1 then -(digitsVal ds : Int) else (digitsVal ds : Int)),
    p.2.drop ds.length)

/-- Parse `\s+(-?\d+)` at the start of `t`. -/
def matchWsInt (t : List Char) : Option (Int × List Char) :=
  match t with
  | [] => none
  | c :: _ =>
    if pyIsWs c then intAt (t.dropWhile pyIsWs) else none

/-- Parse `\s+(-?\d+)\s+(-?\d+)` at the start of `t`. -/
def matchWsInt2 (t : List Char) : Option (Int × Int) :=
  match matchWsInt t with
  | none => none
  | some (a, r) =>
    match matchWsInt r with
    | none => none
    | some (b, _) => some (a, b)

/-- re.search(r'mouse move\s+(-?\d+)\s+(-?\d+)', s). -/
def mouseMoveMatch (s : List Char) : Option (Int × Int) :=
  (List.range (s.length + 1)).findSome? (fun i =>
    if (strL ("mouse move")).isPrefixOf (s.drop i) then
      matchWsInt2 (s.drop (i + 10))
    else none)

/-- re.search(kw ++ r'\s+(-?\d+)', s) for the scroll commands. -/
def kwNumMatch (kw : List Char) (s : List Char) : Option Int :=
  (List.range (s.length + 1)).findSome? (fun i =>
    if kw.isPrefixOf (s.drop i) then
      match matchWsInt (s.drop (i + kw.length)) with
      | none => none
      | some (a, _) => some a
    else none)

/-- The site alternation of the "play ... on ..." pattern, in the
source order of the alternatives. -/
def playSites : List (List Char) :=
  [strL ("youtube"), strL ("youtube music"), strL ("spotify"),
    strL ("google"), strL ("github"), strL ("google docs"),
    strL ("google drive")]

/-- Attempted match of
r"play (.+) on (youtube|youtube music|...)" starting at position `i`:
the greedy `.+` tries the longest non-newline middle first, and the
alternation picks its first matching alternative. -/
def playOnAt (s : List Char) (i : Nat) : Option (List Char × List Char) :=
  if (strL ("play ")).isPrefixOf (s.drop i) then
    let t := s.drop (i + 5)
    (List.range t.length).reverse.findSome? (fun j =>
      let mid := t.take (j + 1)
      if mid.all (fun c => c != '\n') &&
          (strL (" on ")).isPrefixOf (t.drop (j + 1)) then
        match playSites.find? (fun a => a.isPrefixOf (t.drop (j + 1 + 4))) with
        | none => none
        | some a => some (mid, a)
      else none)
  else none

/-- re.search of the play-on pattern: leftmost match start. -/
def playOnMatch (s : List Char) : Option (List Char × List Char) :=
  (List.range (s.length + 1)).findSome? (fun i => playOnAt s i)

/-- Insertion order of site_mappings in the "open ..." branch. -/
def openSiteKeys : List (List Char) :=
  [strL ("google"), strL ("youtube"), strL ("youtube music"),
    strL ("gmail"), strL ("github"), strL ("google docs"),
    strL ("google drive"), strL ("spotify"), strL ("chatgpt"),
    strL ("facebook"), strL ("instagram")]

/-- sorted(site_mappings.keys(), key=lambda k: -len(k)): stable sort by
descending length. -/
def openKeysSorted : List (List Char) :=
  openSiteKeys.mergeSort (fun a b => Nat.ble b.length a.length)

/-- Insertion order of the local_commands dictionary. -/
def localCommandKeys : List (List Char) :=
  [strL ("open notepad"), strL ("open calculator"), strL ("open cmd"),
    strL ("open chrome"), strL ("open vs code"), strL ("open youtube"),
    strL ("play rickrolled"), strL ("shutdown"), strL ("restart"),
    strL ("log off"), strL ("create file"), strL ("delete file"),
    strL ("read file"), strL ("update file"), strL ("system info")]

/-- os.path.splitext(f)[1] is nonempty: some dot after the leading
dots. -/
def hasDotExt (f : List Char) : Bool :=
  (f.dropWhile (fun c => c == '.')).contains '.'

/-- The extension-defaulting of the create-a-file branch. -/
def cfileExtend (f : List Char) : List Char :=
  if hasDotExt f then f
  else if containsSub f (strL ("python")) then f ++ strL (".py")
  else if containsSub f (strL ("javascript")) || containsSub f (strL ("js")) then
    f ++ strL (".js")
  else if containsSub f (strL ("html")) then f ++ strL (".html")
  else if containsSub f (strL ("css")) then f ++ strL (".css")
  else f ++ strL (".txt")

/-- re.search(r"create a file(?: called| named)?\s*(.*)", lower) and the
subsequent filename normalisation: group(1).strip().replace(' ', '_')
plus extension defaulting.  The match exists whenever the branch guard
("create a file" in lower) holds. -/
def createFileName (lower : List Char) : Option (List Char) :=
  match subIdx lower (strL ("create a file")) with
  | none => none
  | some i =>
    let rest := lower.drop (i + 13)
    let rest2 :=
      if (strL (" called")).isPrefixOf rest then rest.drop 7
      else if (strL (" named")).isPrefixOf rest then rest.drop 6
      else rest
    let g := (rest2.dropWhile pyIsWs).takeWhile (fun c => c != '\n')
    some (cfileExtend ((pyStrip g).map (fun c => if c = ' ' then '_' else c)))

/-- re.sub(r'^(write|add)\s*', '', command, flags=IGNORECASE). -/
def stripWriteAdd (command : List Char) : List Char :=
  if (strL ("write")).isPrefixOf (lowerStr command) then
    (command.drop 5).dropWhile pyIsWs
  else if (strL ("add")).isPrefixOf (lowerStr command) then
    (command.drop 3).dropWhile pyIsWs
  else command

/-- The `(?: window)?(?:\s+(.*))?` tail of the window-management
patterns, applied to the text right after the keyword: the stripped
capture when it matched nonempty. -/
def winTarget (afterKw : List Char) : Option (List Char) :=
  let r := if (strL (" window")).isPrefixOf afterKw then afterKw.drop 7
    else afterKw
  match r with
  | [] => none
  | c :: _ =>
    if pyIsWs c then
      let g := (r.dropWhile pyIsWs).takeWhile (fun x => x != '\n')
      if g.isEmpty then none else some (pyStrip g)
    else none

/-- First alternative of (close|quit|exit) matching as a prefix. -/
def closeKw (lower : List Char) : Option (List Char) :=
  if (strL ("close")).isPrefixOf lower then some (strL ("close"))
  else if (strL ("quit")).isPrefixOf lower then some (strL ("quit"))
  else if (strL ("exit")).isPrefixOf lower then some (strL ("exit"))
  else none

inductive SysAction
  | shutdown
  | restart
  | logoff
deriving DecidableEq

/-- The global state read and written by handle_local_command:
pending_close_window, pending_system_action, current_file, the serial
connection, and the window/brightness environment consulted through
pygetwindow / screen_brightness_control. -/
structure RouterEnv where
  pendingCloseWindow : Option (List Char)
  pendingSystemAction : Option SysAction
  currentFile : Option (List Char)
  espOpen : Bool
  windows : List (List Char)
  activeWindow : Option (List Char)
  brightness : Option Nat
deriving DecidableEq

/-- External side effects performed by router branches. -/
inductive Effect
  | osSystem (cmd : List Char)
  | espSend (cmd : List Char)
  | ttsDirect (text : List Char)
  | webOpen (url : List Char)
  | hotkey (keys : List (List Char))
  | pressKey (k : List Char)
  | typeText (t : List Char)
  | mouseClick
  | mouseDoubleClick
  | mouseMoveRel (dx dy : Int)
  | mouseMoveSmall
  | scrollAmount (n : Int)
  | setBrightness (v : Nat)
  | fileCreate (name : List Char)
  | fileOpenEditor (name : List Char)
  | fileAiWrite (name req : List Char)
  | winClose (t : List Char)
  | winMinimize (t : List Char)
  | winMaximize (t : List Char)
  | winActivate (t : List Char)
  | screenshot
  | whatsapp (name msg : List Char)
  | localTable (key : List Char)
deriving DecidableEq

/-- Tagged result texts, one constructor per return site of
handle_local_command (texts whose content depends on runtime data such
as the clock are represented by their tag).  The return sites are split
over two carrier types so that derived decidable equality stays
shallow; the per-site names below are definitions over the wrapper. -/
inductive ReplyA
  | closedWindow (t : List Char)
  | cancelledClose (t : List Char)
  | answerYesNo
  | sysExecuted (a : SysAction)
  | sysCancelled (a : SysAction)
  | timeIs
  | dateIs
  | confirmSys (a : SysAction)
  | lockingPC
  | unlockingPC
  | espNotConnected
  | lightOn
  | lightOff
  | createdFile (name : List Char)
  | aiWrote (name : List Char)
  | noFileOpen
  | confirmClose (t : List Char)
  | noWindowFound (target : Option (List Char))
  | minimized
  | maximized
  | restoredOk (t : List Char)
  | switchedTo (t : List Char)
  | switchUsage
  | newTab
  | closedTab
  | nextTab
  | prevTab
deriving DecidableEq

inductive ReplyB
  | volUp
  | volDown
  | volMuted
  | volUnmuted
  | brightnessSetTo (v : Nat)
  | brightnessIncTo (v : Nat)
  | brightnessDecTo (v : Nat)
  | brightnessReadFail
  | playOnSite (site q : List Char)
  | openKnownSite (key : List Char)
  | openGuessedSite (site : List Char)
  | mouseClicked
  | mouseDoubled
  | mouseMovedBy (dx dy : Int)
  | mouseMovedSlightly
  | typedText (t : List Char)
  | pressedKey (k : List Char)
  | pressedHotkey (ks : List (List Char))
  | scrolledUp (n : Int)
  | scrolledDown (n : Int)
  | screenshotSaved
  | whatsappUsage
  | whatsappSent (name msg : List Char)
  | sysInfo
  | localExec (key : List Char)
  | localTypeError (key : List Char)
deriving DecidableEq

inductive Reply
  | ra (r : ReplyA)
  | rb (r : ReplyB)
deriving DecidableEq

def Reply.closedWindow (t : List Char) : Reply := Reply.ra (ReplyA.closedWindow t)
def Reply.cancelledClose (t : List Char) : Reply := Reply.ra (ReplyA.cancelledClose t)
def Reply.answerYesNo : Reply := Reply.ra ReplyA.answerYesNo
def Reply.sysExecuted (a : SysAction) : Reply := Reply.ra (ReplyA.sysExecuted a)
def Reply.sysCancelled (a : SysAction) : Reply := Reply.ra (ReplyA.sysCancelled a)
def Reply.timeIs : Reply := Reply.ra ReplyA.timeIs
def Reply.dateIs : Reply := Reply.ra ReplyA.dateIs
def Reply.confirmSys (a : SysAction) : Reply := Reply.ra (ReplyA.confirmSys a)
def Reply.lockingPC : Reply := Reply.ra ReplyA.lockingPC
def Reply.unlockingPC : Reply := Reply.ra ReplyA.unlockingPC
def Reply.espNotConnected : Reply := Reply.ra ReplyA.espNotConnected
def Reply.lightOn : Reply := Reply.ra ReplyA.lightOn
def Reply.lightOff : Reply := Reply.ra ReplyA.lightOff
def Reply.createdFile (name : List Char) : Reply := Reply.ra (ReplyA.createdFile name)
def Reply.aiWrote (name : List Char) : Reply := Reply.ra (ReplyA.aiWrote name)
def Reply.noFileOpen : Reply := Reply.ra ReplyA.noFileOpen
def Reply.confirmClose (t : List Char) : Reply := Reply.ra (ReplyA.confirmClose t)
def Reply.noWindowFound (target : Option (List Char)) : Reply := Reply.ra (ReplyA.noWindowFound target)
def Reply.minimized : Reply := Reply.ra ReplyA.minimized
def Reply.maximized : Reply := Reply.ra ReplyA.maximized
def Reply.restoredOk (t : List Char) : Reply := Reply.ra (ReplyA.restoredOk t)
def Reply.switchedTo (t : List Char) : Reply := Reply.ra (ReplyA.switchedTo t)
def Reply.switchUsage : Reply := Reply.ra ReplyA.switchUsage
def Reply.newTab : Reply := Reply.ra ReplyA.newTab
def Reply.closedTab : Reply := Reply.ra ReplyA.closedTab
def Reply.nextTab : Reply := Reply.ra ReplyA.nextTab
def Reply.prevTab : Reply := Reply.ra ReplyA.prevTab
def Reply.volUp : Reply := Reply.rb ReplyB.volUp
def Reply.volDown : Reply := Reply.rb ReplyB.volDown
def Reply.volMuted : Reply := Reply.rb ReplyB.volMuted
def Reply.volUnmuted : Reply := Reply.rb ReplyB.volUnmuted
def Reply.brightnessSetTo (v : Nat) : Reply := Reply.rb (ReplyB.brightnessSetTo v)
def Reply.brightnessIncTo (v : Nat) : Reply := Reply.rb (ReplyB.brightnessIncTo v)
def Reply.brightnessDecTo (v : Nat) : Reply := Reply.rb (ReplyB.brightnessDecTo v)
def Reply.brightnessReadFail : Reply := Reply.rb ReplyB.brightnessReadFail
def Reply.playOnSite (site q : List Char) : Reply := Reply.rb (ReplyB.playOnSite site q)
def Reply.openKnownSite (key : List Char) : Reply := Reply.rb (ReplyB.openKnownSite key)
def Reply.openGuessedSite (site : List Char) : Reply := Reply.rb (ReplyB.openGuessedSite site)
def Reply.mouseClicked : Reply := Reply.rb ReplyB.mouseClicked
def Reply.mouseDoubled : Reply := Reply.rb ReplyB.mouseDoubled
def Reply.mouseMovedBy (dx dy : Int) : Reply := Reply.rb (ReplyB.mouseMovedBy dx dy)
def Reply.mouseMovedSlightly : Reply := Reply.rb ReplyB.mouseMovedSlightly
def Reply.typedText (t : List Char) : Reply := Reply.rb (ReplyB.typedText t)
def Reply.pressedKey (k : List Char) : Reply := Reply.rb (ReplyB.pressedKey k)
def Reply.pressedHotkey (ks : List (List Char)) : Reply := Reply.rb (ReplyB.pressedHotkey ks)
def Reply.scrolledUp (n : Int) : Reply := Reply.rb (ReplyB.scrolledUp n)
def Reply.scrolledDown (n : Int) : Reply := Reply.rb (ReplyB.scrolledDown n)
def Reply.screenshotSaved : Reply := Reply.rb ReplyB.screenshotSaved
def Reply.whatsappUsage : Reply := Reply.rb ReplyB.whatsappUsage
def Reply.whatsappSent (name msg : List Char) : Reply := Reply.rb (ReplyB.whatsappSent name msg)
def Reply.sysInfo : Reply := Reply.rb ReplyB.sysInfo
def Reply.localExec (key : List Char) : Reply := Reply.rb (ReplyB.localExec key)
def Reply.localTypeError (key : List Char) : Reply := Reply.rb (ReplyB.localTypeError key)

/-- The outcome of one handle_local_command call: the returned text
(`none` is Python None — fall through to the generative path), the
updated global state, and the recorded side effects. -/
structure RouteOut where
  reply : Option Reply
  env : RouterEnv
  effects : List Effect
deriving DecidableEq

/-- find_window_by_name: first window whose lowercased title contains
the lowercased name; None for a falsy name. -/
def findWindowByName (windows : List (List Char)) (n : List Char) :
    Option (List Char) :=
  if n.isEmpty then none
  else windows.find? (fun w => containsSub (lowerStr w) (lowerStr n))

/-- os.system command strings of the gated system actions. -/
def sysActionCmd : SysAction → List Char
  | SysAction.shutdown => strL ("shutdown /s /t 5")
  | SysAction.restart => strL ("shutdown /r /t 5")
  | SysAction.logoff => strL ("shutdown /l")

/-- assistant.py affirmative tuple for the window-close confirmation:
("yes jarvis", "y", "yeah", "yep", "sure", "confirm", "ok"). -/
def affirmCloseA : List (List Char) :=
  [strL ("yes jarvis"), strL ("y"), strL ("yeah"), strL ("yep"),
    strL ("sure"), strL ("confirm"), strL ("ok")]

/-- assistant.py negative tuple for the window-close confirmation. -/
def negCloseA : List (List Char) :=
  [strL ("no"), strL ("n"), strL ("nah"), strL ("cancel"), strL ("stop")]

/-- assistant.py affirmative tuple for the system-action confirmation:
("yes jarvis", "y", "yeah", "sure", "ok", "confirm") — no "yes" and no
"yep". -/
def affirmSysA : List (List Char) :=
  [strL ("yes jarvis"), strL ("y"), strL ("yeah"), strL ("sure"),
    strL ("ok"), strL ("confirm")]

/-- assistant.py negative tuple for the system-action confirmation:
("no", "n", "nah", "cancel") — no "stop". -/
def negSysA : List (List Char) :=
  [strL ("no"), strL ("n"), strL ("nah"), strL ("cancel")]

/-- The rule chain of handle_local_command (assistant.py lines 417-737)
evaluated when no confirmation is pending, in source order:
time, date, shutdown/restart/log-off gating, lock PC, unlock via ESP32,
lights, create-a-file, write/add, window close/minimise/maximize/
restore/switch, tab controls, volume, brightness, play-on-site,
open-site with generic fallback, mouse, type/press, scroll, screenshot,
whatsapp, system info, and the free-form local_commands table; `none`
is the final `return None` (pass through to generation). -/
def routeRules (env : RouterEnv) (command lower : List Char) : RouteOut :=
  if containsSub lower (strL ("time")) then
    ⟨some Reply.timeIs, env, []⟩
  else if containsSub lower (strL ("date")) then
    ⟨some Reply.dateIs, env, []⟩
  else if containsSub lower (strL ("shutdown")) then
    ⟨some (Reply.confirmSys SysAction.shutdown),
      { env with pendingSystemAction := some SysAction.shutdown }, []⟩
  else if containsSub lower (strL ("restart")) then
    ⟨some (Reply.confirmSys SysAction.restart),
      { env with pendingSystemAction := some SysAction.restart }, []⟩
  else if containsSub lower (strL ("log off")) then
    ⟨some (Reply.confirmSys SysAction.logoff),
      { env with pendingSystemAction := some SysAction.logoff }, []⟩
  else if containsSub lower (strL ("lock my pc")) ||
      containsSub lower (strL ("lock laptop")) then
    ⟨some Reply.lockingPC, env,
      [Effect.osSystem (strL ("rundll32.exe user32.dll,LockWorkStation"))]⟩
  else if containsSub lower (strL ("unlock my pc")) ||
      containsSub lower (strL ("unlock laptop")) ||
      containsSub lower (strL ("unlock my laptop")) ||
      containsSub lower (strL ("login my pc")) ||
      containsSub lower (strL ("login my laptop")) ||
      containsSub lower (strL ("log in my pc")) ||
      containsSub lower (strL ("log in my laptop")) then
    if env.espOpen then
      ⟨some Reply.unlockingPC, env,
        [Effect.espSend (strL ("UNLOCK_PC")),
          Effect.ttsDirect (strL ("Unlocking your PC"))]⟩
    else
      ⟨some Reply.espNotConnected, env, []⟩
  else if (containsSub lower (strL ("light")) ||
      containsSub lower (strL ("lights"))) && containsSub lower (strL ("on")) then
    ⟨some Reply.lightOn, env,
      if env.espOpen then [Effect.espSend (strL ("LIGHT_ON"))] else []⟩
  else if (containsSub lower (strL ("light")) ||
      containsSub lower (strL ("lights"))) && containsSub lower (strL ("off")) then
    ⟨some Reply.lightOff, env,
      if env.espOpen then [Effect.espSend (strL ("LIGHT_OFF"))] else []⟩
  else if containsSub lower (strL ("create a file")) then
    match createFileName lower with
    | some fname =>
      ⟨some (Reply.createdFile fname), { env with currentFile := some fname },
        [Effect.fileCreate fname, Effect.fileOpenEditor fname]⟩
    | none => ⟨none, env, []⟩
  else if ((strL ("write ")).isPrefixOf lower ||
      (strL ("add ")).isPrefixOf lower) && env.currentFile.isSome then
    match env.currentFile with
    | some f =>
      ⟨some (Reply.aiWrote f), env, [Effect.fileAiWrite f (stripWriteAdd command)]⟩
    | none => ⟨none, env, []⟩
  else if ((strL ("write ")).isPrefixOf lower ||
      (strL ("add ")).isPrefixOf lower) && !env.currentFile.isSome then
    ⟨some Reply.noFileOpen, env, []⟩
  else if (closeKw lower).isSome then
    match closeKw lower with
    | some kw =>
      let target := winTarget (lower.drop kw.length)
      let w := match target with
        | some t => findWindowByName env.windows t
        | none => env.activeWindow
      (match w with
        | none => ⟨some (Reply.noWindowFound target), env, []⟩
        | some wnd =>
          ⟨some (Reply.confirmClose wnd),
            { env with pendingCloseWindow := some wnd }, []⟩)
    | none => ⟨none, env, []⟩
  else if (strL ("minimise")).isPrefixOf lower then
    let target := winTarget (lower.drop 8)
    let w := match target with
      | some t => findWindowByName env.windows t
      | none => env.activeWindow
    match w with
    | some wnd => ⟨some Reply.minimized, env, [Effect.winMinimize wnd]⟩
    | none => ⟨some (Reply.noWindowFound target), env, []⟩
  else if (strL ("maximize")).isPrefixOf lower ||
      (strL ("maximise")).isPrefixOf lower then
    let target := winTarget (lower.drop 8)
    let w := match target with
      | some t => findWindowByName env.windows t
      | none => env.activeWindow
    match w with
    | some wnd => ⟨some Reply.maximized, env, [Effect.winMaximize wnd]⟩
    | none => ⟨some (Reply.noWindowFound target), env, []⟩
  else if (strL ("restore")).isPrefixOf lower ||
      (strL ("unminimize")).isPrefixOf lower ||
      (strL ("unminimise")).isPrefixOf lower then
    let kwlen := if (strL ("restore")).isPrefixOf lower then 7 else 10
    let target := winTarget (lower.drop kwlen)
    let w := match target with
      | some t => findWindowByName env.windows t
      | none => env.activeWindow
    match w with
    | some wnd => ⟨some (Reply.restoredOk wnd), env, [Effect.winActivate wnd]⟩
    | none => ⟨some (Reply.noWindowFound target), env, []⟩
  else if (strL ("switch to ")).isPrefixOf lower then
    let target := pyStrip (delAllSub (strL ("switch to ")) lower)
    if target.isEmpty then ⟨some Reply.switchUsage, env, []⟩
    else
      match findWindowByName env.windows target with
      | some wnd => ⟨some (Reply.switchedTo wnd), env, [Effect.winActivate wnd]⟩
      | none => ⟨some (Reply.noWindowFound (some target)), env, []⟩
  else if ([strL ("new tab"), strL ("open new tab"),
      strL ("open tab")] : List (List Char)).contains lower then
    ⟨some Reply.newTab, env, [Effect.hotkey [strL ("ctrl"), strL ("t")]]⟩
  else if ([strL ("close tab"),
      strL ("close current tab")] : List (List Char)).contains lower then
    ⟨some Reply.closedTab, env, [Effect.hotkey [strL ("ctrl"), strL ("w")]]⟩
  else if ([strL ("next tab"), strL ("switch tab"),
      strL ("switch to next tab")] : List (List Char)).contains lower then
    ⟨some Reply.nextTab, env, [Effect.hotkey [strL ("ctrl"), strL ("tab")]]⟩
  else if ([strL ("previous tab"), strL ("prev tab"),
      strL ("switch to previous tab")] : List (List Char)).contains lower then
    ⟨some Reply.prevTab, env,
      [Effect.hotkey [strL ("ctrl"), strL ("shift"), strL ("tab")]]⟩
  else if containsSub lower (strL ("volume")) &&
      (containsSub lower (strL ("up")) ||
        containsSub lower (strL ("increase"))) then
    ⟨some Reply.volUp, env, [Effect.pressKey (strL ("volumeup"))]⟩
  else if containsSub lower (strL ("volume")) &&
      (containsSub lower (strL ("down")) ||
        containsSub lower (strL ("decrease"))) then
    ⟨some Reply.volDown, env, [Effect.pressKey (strL ("volumedown"))]⟩
  else if containsSub lower (strL ("volume")) &&
      (containsSub lower (strL ("mute")) ||
        containsSub lower (strL ("off"))) then
    ⟨some Reply.volMuted, env, [Effect.pressKey (strL ("volumemute"))]⟩
  else if containsSub lower (strL ("volume")) &&
      (containsSub lower (strL ("unmute")) ||
        containsSub lower (strL ("on"))) then
    ⟨some Reply.volUnmuted, env, [Effect.pressKey (strL ("volumemute"))]⟩
  else if containsSub lower (strL ("brightness")) &&
      (percentMatch lower).isSome then
    match percentMatch lower with
    | some v =>
      ⟨some (Reply.brightnessSetTo (min 100 v)), env,
        [Effect.setBrightness (min 100 v)]⟩
    | none => ⟨none, env, []⟩
  else if containsSub lower (strL ("brightness")) &&
      (containsSub lower (strL ("up")) ||
        containsSub lower (strL ("increase"))) then
    match env.brightness with
    | none => ⟨some Reply.brightnessReadFail, env, []⟩
    | some c =>
      ⟨some (Reply.brightnessIncTo (min 100 (c + 10))), env,
        [Effect.setBrightness (min 100 (c + 10))]⟩
  else if containsSub lower (strL ("brightness")) &&
      (containsSub lower (strL ("down")) ||
        containsSub lower (strL ("decrease"))) then
    match env.brightness with
    | none => ⟨some Reply.brightnessReadFail, env, []⟩
    | some c =>
      ⟨some (Reply.brightnessDecTo (c - 10)), env,
        [Effect.setBrightness (c - 10)]⟩
  else if (playOnMatch lower).isSome then
    match playOnMatch lower with
    | some (mid, site) =>
      ⟨some (Reply.playOnSite site (pyStrip mid)), env, [Effect.webOpen site]⟩
    | none => ⟨none, env, []⟩
  else if (strL ("open ")).isPrefixOf lower &&
      (openKeysSorted.find? (fun k => containsSub lower k)).isSome then
    match openKeysSorted.find? (fun k => containsSub lower k) with
    | some k => ⟨some (Reply.openKnownSite k), env, [Effect.webOpen k]⟩
    | none => ⟨none, env, []⟩
  else if (strL ("open ")).isPrefixOf lower &&
      (splitSpace1 command).length > 1 then
    let target := pyStrip ((splitSpace1 command).getD 1 [])
    let site0 := if target.contains ' ' then
        target.filter (fun c => !(c == ' '))
      else target
    let site := if site0.contains '.' then site0 else site0 ++ strL (".com")
    ⟨some (Reply.openGuessedSite site), env, [Effect.webOpen site]⟩
  else if containsSub lower (strL ("mouse")) &&
      containsSub lower (strL ("click")) then
    ⟨some Reply.mouseClicked, env, [Effect.mouseClick]⟩
  else if containsSub lower (strL ("mouse")) &&
      containsSub lower (strL ("double")) then
    ⟨some Reply.mouseDoubled, env, [Effect.mouseDoubleClick]⟩
  else if containsSub lower (strL ("mouse")) &&
      containsSub lower (strL ("move")) then
    match mouseMoveMatch lower with
    | some (dx, dy) =>
      ⟨some (Reply.mouseMovedBy dx dy), env, [Effect.mouseMoveRel dx dy]⟩
    | none => ⟨some Reply.mouseMovedSlightly, env, [Effect.mouseMoveSmall]⟩
  else if (strL ("type ")).isPrefixOf lower then
    ⟨some (Reply.typedText (command.drop 5)), env,
      [Effect.typeText (command.drop 5)]⟩
  else if (strL ("press ")).isPrefixOf lower then
    let key := pyStrip (command.drop 6)
    let keys := splitWsList key
    if keys.length = 1 then
      ⟨some (Reply.pressedKey (keys.getD 0 [])), env,
        [Effect.pressKey (keys.getD 0 [])]⟩
    else
      ⟨some (Reply.pressedHotkey keys), env, [Effect.hotkey keys]⟩
  else if containsSub lower (strL ("scroll")) &&
      containsSub lower (strL ("up")) then
    let n := match kwNumMatch (strL ("scroll up")) lower with
      | some v => v
      | none => (500 : Int)
    ⟨some (Reply.scrolledUp n), env, [Effect.scrollAmount n]⟩
  else if containsSub lower (strL ("scroll")) &&
      containsSub lower (strL ("down")) then
    let n := match kwNumMatch (strL ("scroll down")) lower with
      | some v => v
      | none => (500 : Int)
    ⟨some (Reply.scrolledDown n), env, [Effect.scrollAmount (-n)]⟩
  else if containsSub lower (strL ("screenshot")) ||
      containsSub lower (strL ("take a screenshot")) then
    ⟨some Reply.screenshotSaved, env, [Effect.screenshot]⟩
  else if containsSub lower (strL ("whatsapp")) then
    let parts := splitSpace2 command
    if parts.length < 3 then ⟨some Reply.whatsappUsage, env, []⟩
    else
      ⟨some (Reply.whatsappSent (parts.getD 1 []) (parts.getD 2 [])), env,
        [Effect.whatsapp (parts.getD 1 []) (parts.getD 2 [])]⟩
  else if containsSub lower (strL ("system info")) then
    ⟨some Reply.sysInfo, env, []⟩
  else
    match localCommandKeys.find? (fun k => containsSub lower k) with
    | some k =>
      if k = strL ("delete file") || k = strL ("update file") then
        ⟨some (Reply.localTypeError k), env, []⟩
      else
        ⟨some (Reply.localExec k), env, [Effect.localTable k]⟩
    | none => ⟨none, env, []⟩

/-- handle_local_command of assistant.py: strip and lowercase the
utterance, serve a pending window-close or system-action confirmation
with the source's exact word tuples, and otherwise evaluate the rule
chain. -/
def handleLocalCommand (env : RouterEnv) (rawCommand : List Char) : RouteOut :=
  let command := pyStrip rawCommand
  let lower := lowerStr command
  match env.pendingCloseWindow with
  | some w =>
    if affirmCloseA.contains lower then
      ⟨some (Reply.closedWindow w), { env with pendingCloseWindow := none },
        [Effect.winClose w]⟩
    else if negCloseA.contains lower then
      ⟨some (Reply.cancelledClose w), { env with pendingCloseWindow := none },
        []⟩
    else ⟨some Reply.answerYesNo, env, []⟩
  | none =>
    match env.pendingSystemAction with
    | some a =>
      if affirmSysA.contains lower then
        ⟨some (Reply.sysExecuted a), { env with pendingSystemAction := none },
          [Effect.osSystem (sysActionCmd a)]⟩
      else if negSysA.contains lower then
        ⟨some (Reply.sysCancelled a), { env with pendingSystemAction := none },
          []⟩
      else ⟨some Reply.answerYesNo, env, []⟩
    | none => routeRules env command lower

/-! ## The confirmation stage of JARVIS-PT2.py (lines 257-298)

The second source file gates confirmations with different word tuples:
plain "yes" is accepted, and "yes please" additionally for window
close.  When a confirmation is pending this stage always returns, so it
fully determines handle_local_command there. -/

def p2AffirmClose : List (List Char) :=
  [strL ("yes"), strL ("y"), strL ("yeah"), strL ("yep"), strL ("sure"),
    strL ("confirm"), strL ("yes please"), strL ("ok")]

def p2NegClose : List (List Char) :=
  [strL ("no"), strL ("n"), strL ("nah"), strL ("cancel"), strL ("stop")]

def p2AffirmSys : List (List Char) :=
  [strL ("yes"), strL ("y"), strL ("yeah"), strL ("sure"), strL ("ok"),
    strL ("confirm")]

def p2NegSys : List (List Char) :=
  [strL ("no"), strL ("n"), strL ("nah"), strL ("cancel")]

structure P2ConfirmOut where
  reply : Option Reply
  pendingClose : Option (List Char)
  pendingSys : Option SysAction
  effects : List Effect
deriving DecidableEq

/-- The two confirmation blocks at the top of JARVIS-PT2.py's
handle_local_command; `reply = none` means no confirmation was pending
and control falls through to the rule chain. -/
def p2ConfirmStage (pendingClose : Option (List Char))
    (pendingSys : Option SysAction) (rawCommand : List Char) : P2ConfirmOut :=
  let command := pyStrip rawCommand
  let lower := lowerStr command
  match pendingClose with
  | some w =>
    if p2AffirmClose.contains lower then
      ⟨some (Reply.closedWindow w), none, pendingSys, [Effect.winClose w]⟩
    else if p2NegClose.contains lower then
      ⟨some (Reply.cancelledClose w), none, pendingSys, []⟩
    else ⟨some Reply.answerYesNo, pendingClose, pendingSys, []⟩
  | none =>
    match pendingSys with
    | some a =>
      if p2AffirmSys.contains lower then
        ⟨some (Reply.sysExecuted a), none, none,
          [Effect.osSystem (sysActionCmd a)]⟩
      else if p2NegSys.contains lower then
        ⟨some (Reply.sysCancelled a), none, none, []⟩
      else ⟨some Reply.answerYesNo, none, pendingSys, []⟩
    | none => ⟨none, none, none, []⟩

/-! ## Interleaved model of the stop flag, TTS queue, and synthesis
worker

The cancellation machinery of both source files is a boolean
threading.Event `stop_flag`, a `queue.Queue` of sentence texts, the
producer (the streaming turn thread calling queue_tts after a per-chunk
flag check), and the single tts_worker thread, whose processing of one
entry passes through the observable points: dequeue
(`text = tts_queue.get()`), the worker flag check, synthesis
(`communicate.save`), the post-save flag check, playback start
(`sd.play`), and the 50 ms playback poll.  The stop button
(stop_action) raises the flag, calls sd.stop and drains the queue;
barge-in (sr_callback) raises the flag and clears it about 100 ms
later without draining; JARVIS-PT2's stop_action clears it about
600 ms later.  Each of these observable points is one labelled
transition of an interleaving semantics.  Entries carry a ghost turn
number (the value of a ghost turn counter bumped whenever the flag is
raised), so staleness is expressible even though the code itself tags
nothing. -/

structure Entry where
  eid : Nat
  turn : Nat
deriving DecidableEq

structure TTSState where
  flag : Bool
  turn : Nat
  pending : List Entry
  queue : List Entry
  holding : Option Entry
  synthDone : Option Entry
  playing : Option Entry
  dropped : List Entry
  droppedS : List Entry
  done : List Entry
  synthLog : List Entry
  spokenLog : List Entry
deriving DecidableEq

inductive TTSAct
  | produce
  | setFlag
  | clearFlag
  | drain
  | abortPlay
  | take
  | dropHolding
  | synth
  | discardSynth
  | play
  | finishPlay
deriving DecidableEq

/-- One labelled transition; `none` when the precondition of the step
does not hold in the state. -/
def applyA (st : TTSState) : TTSAct → Option TTSState
  | TTSAct.produce =>
    match st.flag, st.pending with
    | false, e :: rest =>
        some { st with pending := rest, queue := st.queue ++ [e] }
    | _, _ => none
  | TTSAct.setFlag => some { st with flag := true, turn := st.turn + 1 }
  | TTSAct.clearFlag => some { st with flag := false }
  | TTSAct.drain =>
      some { st with queue := [], dropped := st.dropped ++ st.queue }
  | TTSAct.abortPlay =>
    match st.playing with
    | some e => some { st with playing := none, droppedS := st.droppedS ++ [e] }
    | none => some st
  | TTSAct.take =>
    match st.holding, st.queue with
    | none, e :: rest => some { st with holding := some e, queue := rest }
    | _, _ => none
  | TTSAct.dropHolding =>
    match st.flag, st.holding with
    | true, some e =>
        some { st with holding := none, dropped := st.dropped ++ [e] }
    | _, _ => none
  | TTSAct.synth =>
    match st.flag, st.holding, st.synthDone with
    | false, some e, none =>
        some { st with holding := none, synthDone := some e, synthLog := st.synthLog ++ [e] }
    | _, _, _ => none
  | TTSAct.discardSynth =>
    match st.flag, st.synthDone with
    | true, some e =>
        some { st with synthDone := none, droppedS := st.droppedS ++ [e] }
    | _, _ => none
  | TTSAct.play =>
    match st.flag, st.synthDone, st.playing with
    | false, some e, none =>
        some { st with synthDone := none, playing := some e, spokenLog := st.spokenLog ++ [e] }
    | _, _, _ => none
  | TTSAct.finishPlay =>
    match st.playing with
    | some e => some { st with playing := none, done := st.done ++ [e] }
    | none => none

def execTTS (st : TTSState) : List TTSAct → Option TTSState
  | [] => some st
  | a :: tr =>
    match applyA st a with
    | none => none
    | some st2 => execTTS st2 tr

def entM (o : Option Entry) : Multiset Entry :=
  match o with
  | none => 0
  | some e => {e}

/-- Multiset of entries in the live locations (everywhere except the
dropped-without-synthesis list). -/
def liveM (st : TTSState) : Multiset Entry :=
  (st.pending : Multiset Entry) + (st.queue : Multiset Entry) +
    entM st.holding + entM st.synthDone + entM st.playing +
    (st.droppedS : Multiset Entry) + (st.done : Multiset Entry)

/-- Entries that have been synthesized live on in synthDone, playing,
droppedS or done. -/
def postSynthM (st : TTSState) : Multiset Entry :=
  entM st.synthDone + entM st.playing + (st.droppedS : Multiset Entry) +
    (st.done : Multiset Entry)

/-- Entries whose playback started live on in playing, droppedS or
done. -/
def postPlayM (st : TTSState) : Multiset Entry :=
  entM st.playing + (st.droppedS : Multiset Entry) + (st.done : Multiset Entry)

/-- Well-formedness: entry ids are globally distinct, and the ghost
logs are supported in the corresponding live locations. -/
def TTSInv (st : TTSState) : Prop :=
  ((liveM st + (st.dropped : Multiset Entry)).map Entry.eid).Nodup ∧
    (∀ e ∈ st.synthLog, e ∈ postSynthM st) ∧
    (∀ e ∈ st.spokenLog, e ∈ postPlayM st)

def c3Entry : Entry := ⟨0, 0⟩

/-- A stale sentence still in the queue at the moment of a barge-in
(assistant.py's sr_callback raises and clears the flag without draining
the queue). -/
def c3Init : TTSState :=
  ⟨false, 0, [], [c3Entry], none, none, none, [], [], [], [], []⟩

/-- The barge-in schedule of sr_callback: stop_flag.set(), a 100 ms
wait, stop_flag.clear(); the worker then dequeues, synthesizes and
plays the stale entry. -/
def c3Trace : List TTSAct :=
  [TTSAct.setFlag, TTSAct.clearFlag, TTSAct.take, TTSAct.synth, TTSAct.play]

def c3Final : TTSState :=
  ⟨false, 1, [], [], none, none, some c3Entry, [], [], [], [c3Entry], [c3Entry]⟩

def c3wSt : TTSState :=
  ⟨true, 1, [], [], none, none, none, [⟨5, 0⟩], [], [], [], []⟩

def c3wFinal : TTSState :=
  ⟨false, 1, [], [], none, none, none, [⟨5, 0⟩], [], [], [], []⟩

def c8St : TTSState :=
  ⟨false, 0, [], [⟨1, 0⟩, ⟨2, 0⟩], none, none, some ⟨3, 0⟩, [], [], [], [], []⟩

def c8Final : TTSState :=
  ⟨false, 1, [], [], none, none, none, [⟨1, 0⟩, ⟨2, 0⟩], [⟨3, 0⟩], [], [], []⟩

/-! ## The synthesis worker loop (tts_worker and speak_text,
assistant.py lines 160-247)

tts_worker loops forever inside a try/except: it dequeues a text (None
is the shutdown sentinel), drops it when the stop flag is set, and
otherwise runs speak_text, whose own try/except blocks turn a TTS
generation failure or a playback failure into a printed report.  The
loop body therefore never propagates an exception; this is modelled by
making every entry carry an outcome oracle and the worker a total
function over the queue contents.  An item's `flagSet` field is the
flag value the worker observes for that item. -/

inductive SpeakOutcome
  | ok
  | synthFail
  | playFail
deriving DecidableEq

structure QItem where
  flagSet : Bool
  content : Option (List Char)
  outcome : SpeakOutcome
deriving DecidableEq

inductive WorkerEvent
  | workerExit
  | droppedByFlag (t : List Char)
  | synthesized (t : List Char)
  | played (t : List Char)
  | ttsGenError (t : List Char)
  | playbackError (t : List Char)
deriving DecidableEq

/-- speak_text(text): empty text returns immediately; a synthesis
error is caught and reported ("TTS generation error"); a playback error
is caught and reported ("Playback error") after synthesis; otherwise
the audio is synthesized and played. -/
def speakTextModel (t : List Char) (oc : SpeakOutcome) : List WorkerEvent :=
  if t.isEmpty then []
  else
    match oc with
    | SpeakOutcome.synthFail => [WorkerEvent.ttsGenError t]
    | SpeakOutcome.playFail =>
        [WorkerEvent.synthesized t, WorkerEvent.playbackError t]
    | SpeakOutcome.ok => [WorkerEvent.synthesized t, WorkerEvent.played t]

/-- The tts_worker loop over the queue contents: break on the None
sentinel, drop when the flag is set, otherwise speak and continue. -/
def ttsWorkerRun : List QItem → List WorkerEvent
  | [] => []
  | item :: rest =>
    match item.content with
    | none => [WorkerEvent.workerExit]
    | some t =>
      if item.flagSet then WorkerEvent.droppedByFlag t :: ttsWorkerRun rest
      else speakTextModel t item.outcome ++ ttsWorkerRun rest

def c5Env : RouterEnv := ⟨none, some SysAction.shutdown, none, false, [], none, none⟩

def c6Idle : RouterEnv := ⟨none, none, none, false, [], none, none⟩

def c6Pend : RouterEnv := ⟨none, some SysAction.shutdown, none, false, [], none, none⟩

def c7Env : RouterEnv := ⟨none, none, none, true, [], none, none⟩

/-! ## Theorems -/

/-! ## Lemmas about the segmentation scanner -/

theorem ws_not_punct {c : Char} (h : pyIsWs c = true) : isTermPunct c = false := by
  simp only [pyIsWs, Bool.or_eq_true, decide_eq_true_eq] at h
  rcases h with (((((h | h) | h) | h) | h) | h) <;> subst h <;> decide

theorem headPunct_all_ws {l : List Char} (h : ∀ c ∈ l, pyIsWs c = true) :
    headPunct l = false := by
  cases l with
  | nil => rfl
  | cons a t => exact ws_not_punct (h a (List.mem_cons_self a t))

theorem headPunct_append {l m : List Char} (h : l ≠ []) :
    headPunct (l ++ m) = headPunct l := by
  cases l with
  | nil => exact absurd rfl h
  | cons a t => rfl

theorem segStep_frame (S : List (List Char)) (cur : List Char) (b : Bool) (c : Char) :
    segStep ⟨S, cur, b⟩ c =
      ⟨S ++ (segStep ⟨[], cur, b⟩ c).segs, (segStep ⟨[], cur, b⟩ c).cur,
        (segStep ⟨[], cur, b⟩ c).inSep⟩ := by
  simp only [segStep]
  split <;> split <;> simp

theorem foldl_segStep_frame (p : List Char) (S : List (List Char))
    (cur : List Char) (b : Bool) :
    p.foldl segStep ⟨S, cur, b⟩ =
      ⟨S ++ (p.foldl segStep ⟨[], cur, b⟩).segs, (p.foldl segStep ⟨[], cur, b⟩).cur,
        (p.foldl segStep ⟨[], cur, b⟩).inSep⟩ := by
  induction p generalizing S cur b with
  | nil => simp [List.foldl]
  | cons c p ih =>
    simp only [List.foldl_cons]
    rw [segStep_frame S cur b c]
    rcases hstep : segStep ⟨[], cur, b⟩ c with ⟨D, cur1, b1⟩
    rw [ih (S ++ D) cur1 b1, ih D cur1 b1]
    simp

theorem sepInv_segStep {st : SegState} (h : SepInv st) (c : Char) :
    SepInv (segStep st c) := by
  unfold SepInv at *
  simp only [segStep]
  split
  · split
    · exact h
    · intro hc; simp at hc
  · split
    · intro _; rfl
    · intro hc; simp at hc

theorem sepInv_foldl {st : SegState} (h : SepInv st) (p : List Char) :
    SepInv (p.foldl segStep st) := by
  induction p generalizing st with
  | nil => exact h
  | cons c p ih => exact ih (sepInv_segStep h c)

theorem sepInv_segRun (s : List Char) : SepInv (segRun s) :=
  sepInv_foldl (by intro h; rfl) s

theorem chain_segStep {st : SegState} (h : List.Chain' okPair st.cur.reverse)
    (c : Char) : List.Chain' okPair (segStep st c).cur.reverse := by
  simp only [segStep]
  split
  · split
    · exact h
    · simp
  · split
    · simp
    · rename_i hg
      simp only [Bool.and_eq_true, not_and] at hg
      simp only [List.reverse_cons]
      rw [List.chain'_append]
      refine ⟨h, List.chain'_singleton c, ?_⟩
      intro x hx y hy
      simp only [List.head?_cons, Option.mem_def, Option.some.injEq] at hy
      subst hy
      rw [List.getLast?_reverse] at hx
      cases hcur : st.cur with
      | nil => simp [hcur] at hx
      | cons a t =>
        rw [hcur] at hx
        simp only [List.head?_cons, Option.mem_def, Option.some.injEq] at hx
        subst hx
        intro hcon
        rcases hcon with ⟨hp, hw⟩
        have hhp : headPunct st.cur = true := by simp [hcur, headPunct, hp]
        exact absurd (hg hw) (by simp [hhp])

theorem chain_foldl {st : SegState} (h : List.Chain' okPair st.cur.reverse)
    (p : List Char) : List.Chain' okPair ((p.foldl segStep st).cur.reverse) := by
  induction p generalizing st with
  | nil => exact h
  | cons c p ih => exact ih (chain_segStep h c)

theorem chain_segRun (s : List Char) :
    List.Chain' okPair ((segRun s).cur.reverse) :=
  @chain_foldl segInit List.chain'_nil s

/-- Feeding a string with no internal separator occurrence (terminal
punctuation immediately followed by whitespace) into the scanner in
normal mode just accumulates it onto the current segment. -/
theorem feedNoEmit (t : List Char) (S : List (List Char)) (curR : List Char)
    (h : List.Chain' okPair (curR.reverse ++ t)) :
    t.foldl segStep ⟨S, curR, false⟩ = ⟨S, t.reverse ++ curR, false⟩ := by
  induction t generalizing curR with
  | nil => simp [List.foldl]
  | cons c t ih =>
    have hguard : (pyIsWs c && headPunct curR) = false := by
      cases hcur : curR with
      | nil => simp [headPunct]
      | cons a r =>
        subst hcur
        have hchain : List.Chain' okPair (a :: c :: t) := by
          have h2 : List.Chain' okPair (r.reverse ++ (a :: c :: t)) := by
            have : (a :: r).reverse ++ c :: t = r.reverse ++ (a :: c :: t) := by
              simp [List.append_assoc]
            rw [this] at h
            exact h
          exact h2.right_of_append
        have hac : okPair a c := (List.chain'_cons.mp hchain).1
        rcases hws : pyIsWs c with _ | _
        · simp
        · rcases hp : isTermPunct a with _ | _
          · simp [headPunct, hp]
          · exact absurd ⟨hp, hws⟩ hac
    simp only [List.foldl_cons, segStep]
    simp only [Bool.false_eq_true, if_false, hguard]
    have hnext : List.Chain' okPair ((c :: curR).reverse ++ t) := by
      have : (c :: curR).reverse ++ t = curR.reverse ++ (c :: t) := by
        simp [List.append_assoc]
      rw [this]
      exact h
    rw [ih (c :: curR) hnext]
    simp [List.append_assoc]

theorem dropWhile_ws_append {w : List Char} (hw : ∀ c ∈ w, pyIsWs c = true)
    (s : List Char) : (w ++ s).dropWhile pyIsWs = s.dropWhile pyIsWs := by
  induction w with
  | nil => rfl
  | cons c t ih =>
    have hc : pyIsWs c = true := hw c (List.mem_cons_self c t)
    simp only [List.cons_append, List.dropWhile_cons, hc, if_true]
    exact ih (fun x hx => hw x (List.mem_cons_of_mem c hx))

theorem pyStrip_ws_left {w : List Char} (hw : ∀ c ∈ w, pyIsWs c = true)
    (s : List Char) : pyStrip (w ++ s) = pyStrip s := by
  unfold pyStrip
  rw [dropWhile_ws_append hw s]

theorem queueTTS_ws_left {w : List Char} (hw : ∀ c ∈ w, pyIsWs c = true)
    (s : List Char) : queueTTS (w ++ s) = queueTTS s := by
  unfold queueTTS
  rw [pyStrip_ws_left hw s]

theorem segStep_sep_ws {S : List (List Char)} {cur : List Char} {c : Char}
    (h : pyIsWs c = true) : segStep ⟨S, cur, true⟩ c = ⟨S, cur, true⟩ := by
  simp [segStep, h]

theorem segStep_sep_nws {S : List (List Char)} {cur : List Char} {c : Char}
    (h : pyIsWs c = false) : segStep ⟨S, cur, true⟩ c = ⟨S, [c], false⟩ := by
  simp [segStep, h]

theorem segStep_emit {S : List (List Char)} {cur : List Char} {c : Char}
    (h : (pyIsWs c && headPunct cur) = true) :
    segStep ⟨S, cur, false⟩ c = ⟨S ++ [cur.reverse], [], true⟩ := by
  simp [segStep, h]

theorem segStep_app {S : List (List Char)} {cur : List Char} {c : Char}
    (h : (pyIsWs c && headPunct cur) = false) :
    segStep ⟨S, cur, false⟩ c = ⟨S, c :: cur, false⟩ := by
  simp [segStep, h]

theorem headPunct_ws_rev {w : List Char} (hw : ∀ c ∈ w, pyIsWs c = true) :
    headPunct w.reverse = false :=
  headPunct_all_ws (fun x hx => hw x (List.mem_reverse.mp hx))

/-- Bisimulation between the batch scanner continuing from an
intermediate state and the scanner restarted from scratch on the
carried-over buffer: a pending whitespace run `w` (the tail of a
separator that was already consumed on the batch side) changes the
emitted segments only by a whitespace prefix on the first of them,
which queue_tts strips away, and leaves a whitespace prefix on the
final current segment. -/
theorem stepBisim (p : List Char) (curR w : List Char) (b : Bool)
    (hw : ∀ c ∈ w, pyIsWs c = true) (hb : b = true → curR = []) :
    (p.foldl segStep ⟨[], curR ++ w.reverse, false⟩).segs.filterMap queueTTS =
      (p.foldl segStep ⟨[], curR, b⟩).segs.filterMap queueTTS ∧
    ∃ w2, (∀ c ∈ w2, pyIsWs c = true) ∧
      (p.foldl segStep ⟨[], curR ++ w.reverse, false⟩).cur.reverse =
        w2 ++ (p.foldl segStep ⟨[], curR, b⟩).cur.reverse := by
  induction p generalizing curR w b with
  | nil =>
    refine ⟨rfl, w, hw, ?_⟩
    simp
  | cons c p ih =>
    cases b with
    | true =>
      have hcurnil : curR = [] := hb rfl
      subst hcurnil
      have hXstep : segStep ⟨[], [] ++ w.reverse, false⟩ c =
          ⟨[], c :: w.reverse, false⟩ := by
        rw [List.nil_append]
        exact segStep_app (by rw [headPunct_ws_rev hw, Bool.and_false])
      rcases hws : pyIsWs c with _ | _
      · -- not whitespace: the batch side leaves the separator
        simp only [List.foldl_cons, hXstep, segStep_sep_nws hws]
        have hx : ([c] : List Char) ++ w.reverse = c :: w.reverse := by simp
        rw [← hx]
        exact ih [c] w false hw (by intro h; cases h)
      · -- whitespace: the batch side stays inside the separator
        simp only [List.foldl_cons, hXstep, segStep_sep_ws hws]
        have hx : ([] : List Char) ++ (w ++ [c]).reverse = c :: w.reverse := by
          simp
        rw [← hx]
        refine ih [] (w ++ [c]) true ?_ (fun _ => rfl)
        intro x hx2
        rcases List.mem_append.mp hx2 with h1 | h1
        · exact hw x h1
        · simp only [List.mem_singleton] at h1
          subst h1; exact hws
    | false =>
      have hXguard : (pyIsWs c && headPunct (curR ++ w.reverse)) =
          (pyIsWs c && headPunct curR) := by
        cases hcur : curR with
        | nil =>
          rw [List.nil_append, headPunct_ws_rev hw]
          rfl
        | cons a r => rw [headPunct_append (by simp)]
      by_cases hg : (pyIsWs c && headPunct curR) = true
      · -- separator found: both sides emit
        have hXstep : segStep ⟨[], curR ++ w.reverse, false⟩ c =
            ⟨[] ++ [w ++ curR.reverse], [], true⟩ := by
          rw [segStep_emit (by rw [hXguard]; exact hg)]
          simp
        have hGstep : segStep ⟨[], curR, false⟩ c =
            ⟨[] ++ [curR.reverse], [], true⟩ :=
          segStep_emit hg
        simp only [List.foldl_cons, hXstep, hGstep]
        rw [foldl_segStep_frame p ([] ++ [w ++ curR.reverse]) [] true,
          foldl_segStep_frame p ([] ++ [curR.reverse]) [] true]
        constructor
        · simp only [List.filterMap_append, List.nil_append, List.filterMap]
          rw [queueTTS_ws_left hw curR.reverse]
        · exact ⟨[], by simp, by simp⟩
      · -- no separator: both sides append the character
        have hg2 : (pyIsWs c && headPunct curR) = false := by
          rcases hv : (pyIsWs c && headPunct curR) with _ | _
          · rfl
          · exact absurd hv hg
        have hXstep : segStep ⟨[], curR ++ w.reverse, false⟩ c =
            ⟨[], (c :: curR) ++ w.reverse, false⟩ := by
          rw [segStep_app (by rw [hXguard]; exact hg2)]
          simp
        have hGstep : segStep ⟨[], curR, false⟩ c = ⟨[], c :: curR, false⟩ :=
          segStep_app hg2
        simp only [List.foldl_cons, hXstep, hGstep]
        exact ih (c :: curR) w false hw (by intro h; cases h)

theorem chain_ws_append {w : List Char} (hw : ∀ c ∈ w, pyIsWs c = true)
    {t : List Char} (ht : List.Chain' okPair t) :
    List.Chain' okPair (w ++ t) := by
  induction w with
  | nil => exact ht
  | cons c w ih =>
    rw [List.cons_append, List.chain'_cons']
    refine ⟨?_, ih (fun x hx => hw x (List.mem_cons_of_mem c hx))⟩
    intro y _
    intro hcon
    rcases hcon with ⟨hp, _⟩
    rw [ws_not_punct (hw c (List.mem_cons_self c w))] at hp
    cases hp

theorem segRun_no_split {u : List Char} (h : List.Chain' okPair u) :
    segRun u = ⟨[], u.reverse, false⟩ := by
  unfold segRun segInit
  rw [feedNoEmit u [] [] (by simpa using h)]
  simp

/-- Streaming/batch correspondence: after any fragment sequence the
emitted texts are exactly the queue_tts images of the completed batch
segments of the full concatenated text, and the held-back buffer is
the final batch segment up to a leading whitespace run. -/
theorem streamBatchInv (frags : List (List Char)) :
    (streamRun frags none).emitted =
      (segRun frags.flatten).segs.filterMap queueTTS ∧
    ∃ w, (∀ c ∈ w, pyIsWs c = true) ∧
      (streamRun frags none).buffer = w ++ (segRun frags.flatten).cur.reverse := by
  induction frags using List.reverseRecOn with
  | nil => exact ⟨rfl, [], by simp, by simp [streamRun, streamInit, segRun, segInit]⟩
  | append_singleton frags p ih =>
    obtain ⟨h1, w, hw, h2⟩ := ih
    have hrun : streamRun (frags ++ [p]) none =
        chunkStep (streamRun frags none) p := by
      unfold streamRun
      simp [List.foldl_append]
    rcases hp : p.isEmpty with _ | _
    · -- nonempty fragment
      have hflat : (frags ++ [p]).flatten = frags.flatten ++ p := by simp
      -- the re-split of the carried buffer plus the new fragment
      have hbufrun : segRun ((streamRun frags none).buffer ++ p) =
          p.foldl segStep ⟨[], (segRun frags.flatten).cur ++ w.reverse, false⟩ := by
        have hchain : List.Chain' okPair ((streamRun frags none).buffer) := by
          rw [h2]
          exact chain_ws_append hw (chain_segRun frags.flatten)
        have : segRun ((streamRun frags none).buffer ++ p) =
            p.foldl segStep (segRun ((streamRun frags none).buffer)) := by
          unfold segRun
          rw [List.foldl_append]
        rw [this, segRun_no_split hchain, h2]
        simp
      have hbatch : segRun (frags.flatten ++ p) =
          ⟨(segRun frags.flatten).segs ++
              (p.foldl segStep
                ⟨[], (segRun frags.flatten).cur, (segRun frags.flatten).inSep⟩).segs,
            (p.foldl segStep
              ⟨[], (segRun frags.flatten).cur, (segRun frags.flatten).inSep⟩).cur,
            (p.foldl segStep
              ⟨[], (segRun frags.flatten).cur, (segRun frags.flatten).inSep⟩).inSep⟩ := by
        have : segRun (frags.flatten ++ p) =
            p.foldl segStep (segRun frags.flatten) := by
          unfold segRun
          rw [List.foldl_append]
        rw [this]
        exact foldl_segStep_frame p _ _ _
      obtain ⟨hsegs, w2, hw2, hcur⟩ :=
        stepBisim p (segRun frags.flatten).cur w (segRun frags.flatten).inSep hw
          (sepInv_segRun frags.flatten)
      have hchunk : chunkStep (streamRun frags none) p =
          ⟨(streamRun frags none).emitted ++
              (p.foldl segStep
                ⟨[], (segRun frags.flatten).cur ++ w.reverse, false⟩).segs.filterMap
                queueTTS,
            (p.foldl segStep
              ⟨[], (segRun frags.flatten).cur ++ w.reverse, false⟩).cur.reverse,
            (streamRun frags none).reply ++ p⟩ := by
        unfold chunkStep
        rw [if_neg (by simp [hp])]
        unfold splitSentences
        rw [hbufrun]
        simp
      constructor
      · rw [hrun, hchunk, hflat, hbatch]
        simp only [List.filterMap_append]
        rw [h1, hsegs]
      · refine ⟨w2, hw2, ?_⟩
        rw [hrun, hchunk, hflat, hbatch]
        simpa using hcur
    · -- empty fragment: the loop body is skipped
      have hpnil : p = [] := List.isEmpty_iff.mp hp
      subst hpnil
      have : chunkStep (streamRun frags none) [] = streamRun frags none := by
        unfold chunkStep
        simp
      rw [hrun, this]
      simpa using ⟨h1, w, hw, h2⟩

theorem foldl_chunkStep_reply (l : List (List Char)) (st : StreamState) :
    (l.foldl chunkStep st).reply = st.reply ++ l.flatten := by
  induction l generalizing st with
  | nil => simp
  | cons part l ih =>
    rw [List.foldl_cons, ih]
    have : (chunkStep st part).reply = st.reply ++ part := by
      unfold chunkStep
      rcases hp : part.isEmpty with _ | _
      · simp [hp]
      · rw [List.isEmpty_iff.mp hp]
        simp [hp]
    rw [this]
    simp

theorem streamRun_reply (frags : List (List Char)) (k : Nat) :
    (streamRun frags (some k)).reply = (frags.take k).flatten := by
  unfold streamRun
  rw [foldl_chunkStep_reply]
  rfl

theorem streamRun_reply_all (frags : List (List Char)) :
    (streamRun frags none).reply = frags.flatten := by
  unfold streamRun
  rw [foldl_chunkStep_reply]
  rfl

theorem stream_eq_batch (frags : List (List Char)) :
    streamEmitted frags none = (splitSentences frags.flatten).filterMap queueTTS := by
  obtain ⟨h1, w, hw, h2⟩ := streamBatchInv frags
  unfold streamEmitted splitSentences
  simp only []
  rw [h1, h2, queueTTS_ws_left hw, List.filterMap_append]
  congr 1
  rcases hq : queueTTS ((segRun frags.flatten).cur.reverse) with _ | t <;>
    simp [List.filterMap, hq]

/-- Claim C1, counterexample: a generative turn cancelled after one of
two fragments (stop flag observed set before the second chunk) still
appends the user utterance and the partial reply to the in-process
memory and still persists them through save_memory, so memory is not
left unchanged. -/
theorem c1_counterexample :
    (streamResponseThread [sysMsg (strL ("sys"))] (strL ("hello"))
        [strL ("Hello. Wor"), strL ("ld.")] (some 1)).2.1 ≠
      [sysMsg (strL ("sys"))] ∧
    (streamResponseThread [sysMsg (strL ("sys"))] (strL ("hello"))
        [strL ("Hello. Wor"), strL ("ld.")] (some 1)).2.1 =
      [sysMsg (strL ("sys")), userMsg (strL ("hello")),
        asstMsg (strL ("Hello. Wor"))] ∧
    (streamResponseThread [sysMsg (strL ("sys"))] (strL ("hello"))
        [strL ("Hello. Wor"), strL ("ld.")] (some 1)).2.2 =
      [sysMsg (strL ("sys")), userMsg (strL ("hello")),
        asstMsg (strL ("Hello. Wor"))] := by
  refine ⟨?_, by decide, by decide⟩
  intro h
  have := congrArg List.length h
  simp [streamResponseThread] at this

/-- Claim C1 (amended): a generative turn cancelled after `k` fragments
does mutate Conversation Memory — stream_response_thread appends the
user utterance and the partially accumulated reply (the concatenation
of the consumed fragments) to the in-process memory list and passes the
result to save_memory, exactly as an uncancelled turn does. -/
theorem c1_cancelled_turn_still_appends (mem : List Msg) (u : List Char)
    (frags : List (List Char)) (k : Nat) :
    (streamResponseThread mem u frags (some k)).2.1 =
      mem ++ [userMsg u, asstMsg ((frags.take k).flatten)] ∧
    (streamResponseThread mem u frags (some k)).2.2 =
      saveMemory (mem ++ [userMsg u, asstMsg ((frags.take k).flatten)]) := by
  unfold streamResponseThread
  simp only []
  rw [streamRun_reply]
  exact ⟨rfl, rfl⟩

/-- Claim C2, counterexample: for the single-fragment stream
"Hi. Bye." the emitted segments are "Hi." and "Bye.", whose
concatenation "Hi.Bye." loses the separating space and is not the
input concatenation. -/
theorem c2_counterexample :
    (streamEmitted [strL ("Hi. Bye.")] none).flatten ≠
      ([strL ("Hi. Bye.")] : List (List Char)).flatten ∧
    (streamEmitted [strL ("Hi. Bye.")] none).flatten = strL ("Hi.Bye.") := by
  constructor
  · intro h
    have := congrArg List.length h
    simp at this
    revert this
    decide
  · decide

/-- Claim C2 (amended): for every fragment sequence, the texts emitted
by the streaming loop (sentence emissions plus the flushed remainder)
are exactly the queue_tts images — each segment stripped of surrounding
whitespace, empty results dropped — of the batch re.split segmentation
of the full concatenated text.  Concatenation therefore reproduces the
generated text only up to the deleted inter-sentence whitespace runs
and stripped edge whitespace, not exactly. -/
theorem c2_stream_equals_batch_stripped (frags : List (List Char)) :
    streamEmitted frags none = (splitSentences frags.flatten).filterMap queueTTS :=
  stream_eq_batch frags

/-- Claim C4, counterexample: after 11 completed generative turns the
in-process Conversation Memory list holds 23 entries, exceeding
systemCount + 20 = 21 — the list is never trimmed in place, only the
persisted snapshot is. -/
theorem c4_counterexample :
    (afterTurns 11).length = 23 ∧
    ((afterTurns 11).filter (fun m => m.role == Role.system)).length = 1 ∧
    ¬((afterTurns 11).length ≤
        ((afterTurns 11).filter (fun m => m.role == Role.system)).length + 20) := by
  refine ⟨by decide, by decide, ?_⟩
  intro h
  revert h
  decide

/-- Claim C4 (amended): the bound holds for the persisted snapshot:
the list written by save_memory has at most systemCount + 20 entries,
contains every system entry of the input as a prefix in original order,
and preserves a leading system entry at the head. -/
theorem c4_saved_memory_bounded (msgs : List Msg) :
    (saveMemory msgs).length ≤
      (msgs.filter (fun m => m.role == Role.system)).length + 20 ∧
    msgs.filter (fun m => m.role == Role.system) <+: saveMemory msgs ∧
    (∀ m, msgs.head? = some m → m.role = Role.system →
      (saveMemory msgs).head? = some m) := by
  refine ⟨?_, ?_, ?_⟩
  · unfold saveMemory lastN
    rw [List.length_append, List.length_drop]
    omega
  · exact ⟨_, rfl⟩
  · intro m hm hr
    cases msgs with
    | nil => cases hm
    | cons a t =>
      simp only [List.head?_cons, Option.some.injEq] at hm
      subst hm
      unfold saveMemory
      rw [List.filter_cons, if_pos (by simp [hr])]
      simp

/-- Claim C10: for every input list, save_memory persists all
system-role messages first, in their original relative order, followed
by the at-most-20 most recent non-system messages in their original
relative order (a suffix of the non-system subsequence). -/
theorem c10_save_memory_normalizes (msgs : List Msg) :
    saveMemory msgs =
      msgs.filter (fun m => m.role == Role.system) ++
        lastN 20 (msgs.filter (fun m => m.role != Role.system)) ∧
    (∀ m ∈ msgs.filter (fun m => m.role == Role.system), m.role = Role.system) ∧
    (∀ m ∈ lastN 20 (msgs.filter (fun m => m.role != Role.system)),
      ¬m.role = Role.system) ∧
    lastN 20 (msgs.filter (fun m => m.role != Role.system)) <:+
      msgs.filter (fun m => m.role != Role.system) ∧
    (lastN 20 (msgs.filter (fun m => m.role != Role.system))).length =
      min 20 (msgs.filter (fun m => m.role != Role.system)).length := by
  refine ⟨rfl, ?_, ?_, ?_, ?_⟩
  · intro m hm
    have := (List.mem_filter.mp hm).2
    simpa using this
  · intro m hm
    have hmem : m ∈ msgs.filter (fun m => m.role != Role.system) := by
      unfold lastN at hm
      exact List.drop_subset _ _ hm
    have := (List.mem_filter.mp hmem).2
    simpa using this
  · unfold lastN
    exact List.drop_suffix _ _
  · unfold lastN
    rw [List.length_drop]
    omega

/-- Witness for the conditional head-preservation part of the amended
C4 theorem, at a concrete three-entry memory list. -/
theorem c4_saved_memory_bounded_witness :
    (saveMemory [sysMsg (strL ("s")), userMsg (strL ("u")),
        asstMsg (strL ("a"))]).length ≤
      (([sysMsg (strL ("s")), userMsg (strL ("u")),
          asstMsg (strL ("a"))] : List Msg).filter
          (fun m => m.role == Role.system)).length + 20 ∧
    (saveMemory [sysMsg (strL ("s")), userMsg (strL ("u")),
        asstMsg (strL ("a"))]).head? = some (sysMsg (strL ("s"))) := by
  refine ⟨(c4_saved_memory_bounded _).1, ?_⟩
  exact (c4_saved_memory_bounded _).2.2 (sysMsg (strL ("s"))) (by decide) (by decide)

theorem coeSnoc (l : List Entry) (e : Entry) :
    ((l ++ [e] : List Entry) : Multiset Entry) = (l : Multiset Entry) + {e} := by
  rw [← Multiset.coe_add]
  rfl

theorem coeCons (l : List Entry) (e : Entry) :
    ((e :: l : List Entry) : Multiset Entry) = {e} + (l : Multiset Entry) := by
  simp

theorem entM_none : entM none = 0 := rfl

theorem entM_some (e : Entry) : entM (some e) = {e} := rfl

/-- Every transition preserves well-formedness and never removes an
entry from the dropped-without-synthesis list. -/
theorem ttsInv_applyA {st st' : TTSState} (hinv : TTSInv st) {a : TTSAct}
    (hap : applyA st a = some st') :
    TTSInv st' ∧ ∀ e ∈ st.dropped, e ∈ st'.dropped := by
  obtain ⟨hnd, hsyn, hspk⟩ := hinv
  cases a <;> simp only [applyA] at hap
  case produce =>
    split at hap
    case _ e rest hf hp =>
      injection hap with hap
      subst hap
      have hall : liveM { st with pending := rest, queue := st.queue ++ [e] } +
          (st.dropped : Multiset Entry) =
          liveM st + (st.dropped : Multiset Entry) := by
        unfold liveM
        rw [hp, coeSnoc, coeCons]
        simp only [entM_none, entM_some]
        abel
      exact ⟨⟨by rw [hall]; exact hnd, fun x hx => hsyn x hx,
        fun x hx => hspk x hx⟩, fun x hx => hx⟩
    case _ => simp at hap
  case setFlag =>
    injection hap with hap
    subst hap
    exact ⟨⟨hnd, fun x hx => hsyn x hx, fun x hx => hspk x hx⟩, fun x hx => hx⟩
  case clearFlag =>
    injection hap with hap
    subst hap
    exact ⟨⟨hnd, fun x hx => hsyn x hx, fun x hx => hspk x hx⟩, fun x hx => hx⟩
  case drain =>
    injection hap with hap
    subst hap
    have hall : liveM { st with queue := [], dropped := st.dropped ++ st.queue } +
        ((st.dropped ++ st.queue : List Entry) : Multiset Entry) =
        liveM st + (st.dropped : Multiset Entry) := by
      unfold liveM
      rw [← Multiset.coe_add]
      simp only [List.append_nil, Multiset.coe_nil]
      abel
    refine ⟨⟨by rw [hall]; exact hnd, fun x hx => hsyn x hx,
      fun x hx => hspk x hx⟩, ?_⟩
    intro x hx
    exact List.mem_append.mpr (Or.inl hx)
  case abortPlay =>
    split at hap
    case _ e hpl =>
      injection hap with hap
      subst hap
      have hall : liveM { st with playing := none, droppedS := st.droppedS ++ [e] } + (st.dropped : Multiset Entry) =
          liveM st + (st.dropped : Multiset Entry) := by
        unfold liveM
        rw [hpl, coeSnoc]
        simp only [entM_none, entM_some]
        abel
      have hps : postSynthM { st with playing := none, droppedS := st.droppedS ++ [e] } = postSynthM st := by
        unfold postSynthM
        rw [hpl, coeSnoc]
        simp only [entM_none, entM_some]
        abel
      have hpp : postPlayM { st with playing := none, droppedS := st.droppedS ++ [e] } = postPlayM st := by
        unfold postPlayM
        rw [hpl, coeSnoc]
        simp only [entM_none, entM_some]
        abel
      refine ⟨⟨by rw [hall]; exact hnd, ?_, ?_⟩, fun x hx => hx⟩
      · intro x hx
        rw [hps]
        exact hsyn x hx
      · intro x hx
        rw [hpp]
        exact hspk x hx
    case _ hpl =>
      injection hap with hap
      subst hap
      exact ⟨⟨hnd, fun x hx => hsyn x hx, fun x hx => hspk x hx⟩,
        fun x hx => hx⟩
  case take =>
    split at hap
    case _ e rest hh hq =>
      injection hap with hap
      subst hap
      have hall : liveM { st with holding := some e, queue := rest } +
          (st.dropped : Multiset Entry) =
          liveM st + (st.dropped : Multiset Entry) := by
        unfold liveM
        rw [hh, hq, coeCons]
        simp only [entM_none, entM_some]
        abel
      exact ⟨⟨by rw [hall]; exact hnd, fun x hx => hsyn x hx,
        fun x hx => hspk x hx⟩, fun x hx => hx⟩
    case _ => simp at hap
  case dropHolding =>
    split at hap
    case _ e hf hh =>
      injection hap with hap
      subst hap
      have hall : liveM { st with holding := none, dropped := st.dropped ++ [e] } +
          ((st.dropped ++ [e] : List Entry) : Multiset Entry) =
          liveM st + (st.dropped : Multiset Entry) := by
        unfold liveM
        rw [hh, coeSnoc]
        simp only [entM_none, entM_some]
        abel
      refine ⟨⟨by rw [hall]; exact hnd, fun x hx => hsyn x hx,
        fun x hx => hspk x hx⟩, ?_⟩
      intro x hx
      exact List.mem_append.mpr (Or.inl hx)
    case _ => simp at hap
  case synth =>
    split at hap
    case _ e hf hh hsd =>
      injection hap with hap
      subst hap
      have hall : liveM { st with holding := none, synthDone := some e, synthLog := st.synthLog ++ [e] } + (st.dropped : Multiset Entry) =
          liveM st + (st.dropped : Multiset Entry) := by
        unfold liveM
        rw [hh, hsd]
        simp only [entM_none, entM_some]
        abel
      have hps : postSynthM { st with holding := none, synthDone := some e, synthLog := st.synthLog ++ [e] } = postSynthM st + {e} := by
        unfold postSynthM
        rw [hsd]
        simp only [entM_none, entM_some]
        abel
      refine ⟨⟨by rw [hall]; exact hnd, ?_, fun x hx => hspk x hx⟩,
        fun x hx => hx⟩
      intro x hx
      rcases List.mem_append.mp hx with h1 | h1
      · rw [hps]
        exact Multiset.mem_add.mpr (Or.inl (hsyn x h1))
      · simp only [List.mem_singleton] at h1
        subst h1
        rw [hps]
        exact Multiset.mem_add.mpr (Or.inr (by simp))
    case _ => simp at hap
  case discardSynth =>
    split at hap
    case _ e hf hsd =>
      injection hap with hap
      subst hap
      have hall : liveM { st with synthDone := none, droppedS := st.droppedS ++ [e] } + (st.dropped : Multiset Entry) =
          liveM st + (st.dropped : Multiset Entry) := by
        unfold liveM
        rw [hsd, coeSnoc]
        simp only [entM_none, entM_some]
        abel
      have hps : postSynthM { st with synthDone := none, droppedS := st.droppedS ++ [e] } = postSynthM st := by
        unfold postSynthM
        rw [hsd, coeSnoc]
        simp only [entM_none, entM_some]
        abel
      have hpp : postPlayM { st with synthDone := none, droppedS := st.droppedS ++ [e] } = postPlayM st + {e} := by
        unfold postPlayM
        rw [coeSnoc]
        simp only [entM_none, entM_some]
        abel
      refine ⟨⟨by rw [hall]; exact hnd, ?_, ?_⟩, fun x hx => hx⟩
      · intro x hx
        rw [hps]
        exact hsyn x hx
      · intro x hx
        rw [hpp]
        exact Multiset.mem_add.mpr (Or.inl (hspk x hx))
    case _ => simp at hap
  case play =>
    split at hap
    case _ e hf hsd hpl =>
      injection hap with hap
      subst hap
      have hall : liveM { st with synthDone := none, playing := some e, spokenLog := st.spokenLog ++ [e] } + (st.dropped : Multiset Entry) =
          liveM st + (st.dropped : Multiset Entry) := by
        unfold liveM
        rw [hsd, hpl]
        simp only [entM_none, entM_some]
        abel
      have hps : postSynthM { st with synthDone := none, playing := some e, spokenLog := st.spokenLog ++ [e] } = postSynthM st := by
        unfold postSynthM
        rw [hsd, hpl]
        simp only [entM_none, entM_some]
        abel
      have hpp : postPlayM { st with synthDone := none, playing := some e, spokenLog := st.spokenLog ++ [e] } = postPlayM st + {e} := by
        unfold postPlayM
        rw [hpl]
        simp only [entM_none, entM_some]
        abel
      refine ⟨⟨by rw [hall]; exact hnd, ?_, ?_⟩, fun x hx => hx⟩
      · intro x hx
        rw [hps]
        exact hsyn x hx
      · intro x hx
        rcases List.mem_append.mp hx with h1 | h1
        · rw [hpp]
          exact Multiset.mem_add.mpr (Or.inl (hspk x h1))
        · simp only [List.mem_singleton] at h1
          subst h1
          rw [hpp]
          exact Multiset.mem_add.mpr (Or.inr (by simp))
    case _ => simp at hap
  case finishPlay =>
    split at hap
    case _ e hpl =>
      injection hap with hap
      subst hap
      have hall : liveM { st with playing := none, done := st.done ++ [e] } +
          (st.dropped : Multiset Entry) =
          liveM st + (st.dropped : Multiset Entry) := by
        unfold liveM
        rw [hpl, coeSnoc]
        simp only [entM_none, entM_some]
        abel
      have hps : postSynthM { st with playing := none, done := st.done ++ [e] } =
          postSynthM st := by
        unfold postSynthM
        rw [hpl, coeSnoc]
        simp only [entM_none, entM_some]
        abel
      have hpp : postPlayM { st with playing := none, done := st.done ++ [e] } =
          postPlayM st := by
        unfold postPlayM
        rw [hpl, coeSnoc]
        simp only [entM_none, entM_some]
        abel
      refine ⟨⟨by rw [hall]; exact hnd, ?_, ?_⟩, fun x hx => hx⟩
      · intro x hx
        rw [hps]
        exact hsyn x hx
      · intro x hx
        rw [hpp]
        exact hspk x hx
    case _ => simp at hap

theorem ttsInv_exec {st st' : TTSState} (hinv : TTSInv st) {tr : List TTSAct}
    (hex : execTTS st tr = some st') :
    TTSInv st' ∧ ∀ e ∈ st.dropped, e ∈ st'.dropped := by
  induction tr generalizing st with
  | nil =>
    simp only [execTTS] at hex
    injection hex with hex
    subst hex
    exact ⟨hinv, fun _ hx => hx⟩
  | cons a tr ih =>
    simp only [execTTS] at hex
    rcases hap : applyA st a with _ | st2
    · rw [hap] at hex
      cases hex
    · rw [hap] at hex
      obtain ⟨h1, h2⟩ := ttsInv_applyA hinv hap
      obtain ⟨h3, h4⟩ := ih h1 hex
      exact ⟨h3, fun e he => h4 e (h2 e he)⟩

theorem postSynth_subset_live {st : TTSState} {x : Entry}
    (hx : x ∈ postSynthM st) : x ∈ liveM st := by
  unfold postSynthM at hx
  unfold liveM
  simp only [Multiset.mem_add] at hx ⊢
  tauto

theorem postPlay_subset_live {st : TTSState} {x : Entry}
    (hx : x ∈ postPlayM st) : x ∈ liveM st := by
  unfold postPlayM at hx
  unfold liveM
  simp only [Multiset.mem_add] at hx ⊢
  tauto

/-- In a well-formed state, an entry discarded without synthesis has an
id foreign to both ghost logs: its audio was never synthesized and its
playback never started. -/
theorem dropped_not_synth {st : TTSState} (hinv : TTSInv st) {e : Entry}
    (he : e ∈ st.dropped) :
    e.eid ∉ st.synthLog.map Entry.eid ∧ e.eid ∉ st.spokenLog.map Entry.eid := by
  obtain ⟨hnd, hsyn, hspk⟩ := hinv
  rw [Multiset.map_add] at hnd
  have hdisj := Multiset.nodup_add.mp hnd
  have hedrop : e.eid ∈ (st.dropped : Multiset Entry).map Entry.eid := by
    apply Multiset.mem_map.mpr
    exact ⟨e, by simpa using he, rfl⟩
  have hnotlive : e.eid ∉ (liveM st).map Entry.eid := by
    intro hcon
    exact absurd hedrop (Multiset.disjoint_left.mp hdisj.2.2 hcon)
  constructor
  · intro hcon
    rcases List.mem_map.mp hcon with ⟨x, hx1, hx2⟩
    apply hnotlive
    apply Multiset.mem_map.mpr
    exact ⟨x, postSynth_subset_live (hsyn x hx1), hx2⟩
  · intro hcon
    rcases List.mem_map.mp hcon with ⟨x, hx1, hx2⟩
    apply hnotlive
    apply Multiset.mem_map.mpr
    exact ⟨x, postPlay_subset_live (hspk x hx1), hx2⟩

theorem execTTS_append (st : TTSState) (l1 l2 : List TTSAct) :
    execTTS st (l1 ++ l2) =
      match execTTS st l1 with
      | none => none
      | some s => execTTS s l2 := by
  induction l1 generalizing st with
  | nil => simp [execTTS]
  | cons a t ih =>
    simp only [List.cons_append, execTTS]
    rcases applyA st a with _ | s2
    · rfl
    · exact ih s2

/-- stop_action's observable sequence — raise the flag, sd.stop, drain
the queue — always succeeds, leaves the queue empty and no active
playback, and moves every queued entry to the dropped list. -/
theorem stop_seq_exec (st : TTSState) :
    ∃ st3, execTTS st [TTSAct.setFlag, TTSAct.abortPlay, TTSAct.drain] = some st3 ∧
      st3.queue = [] ∧ st3.playing = none ∧
      st3.dropped = st.dropped ++ st.queue := by
  rcases hpl : st.playing with _ | e
  · refine ⟨{ st with flag := true, turn := st.turn + 1, queue := [], dropped := st.dropped ++ st.queue }, ?_, rfl, hpl, rfl⟩
    simp only [execTTS, applyA, hpl]
  · refine ⟨{ st with flag := true, turn := st.turn + 1, playing := none, droppedS := st.droppedS ++ [e], queue := [], dropped := st.dropped ++ st.queue }, ?_, rfl, rfl, rfl⟩
    simp only [execTTS, applyA, hpl]

/-- Claim C3, counterexample: an entry created under turn 0 and still
queued when the turn-1 stop signal arrives is synthesized and played
after the flag is auto-cleared — the trace modelling sr_callback's
set/wait-0.1s/clear schedule ends with the stale entry in both ghost
logs even though its epoch is strictly older than the current turn. -/
theorem c3_counterexample :
    TTSInv c3Init ∧
    execTTS c3Init c3Trace = some c3Final ∧
    c3Entry ∈ c3Final.synthLog ∧ c3Entry ∈ c3Final.spokenLog ∧
    c3Entry.turn < c3Final.turn := by
  refine ⟨⟨by decide, by decide, by decide⟩, by decide, by decide, by decide,
    by decide⟩

/-- Claim C3 (amended): stale work is suppressed only while the stop
flag is set.  Synthesis and playback-start steps require the flag to be
clear, an entry is dropped at dequeue exactly when the flag is set, and
an entry once discarded without synthesis is discarded forever: its id
never enters the synthesis or playback logs in any continuation.  The
original "never synthesized or played" guarantee fails once the flag is
cleared again (see the counterexample). -/
theorem c3_stale_suppressed_only_while_flag_set :
    (∀ st st' : TTSState, applyA st TTSAct.synth = some st' → st.flag = false) ∧
    (∀ st st' : TTSState, applyA st TTSAct.play = some st' → st.flag = false) ∧
    (∀ st st' : TTSState, applyA st TTSAct.dropHolding = some st' →
      st.flag = true) ∧
    (∀ st : TTSState, TTSInv st → ∀ tr st', execTTS st tr = some st' →
      ∀ e ∈ st.dropped, e ∈ st'.dropped ∧
        e.eid ∉ st'.synthLog.map Entry.eid ∧
        e.eid ∉ st'.spokenLog.map Entry.eid) := by
  refine ⟨?_, ?_, ?_, ?_⟩
  · intro st st' h
    simp only [applyA] at h
    split at h
    case _ hf hh hsd => exact hf
    case _ => simp at h
  · intro st st' h
    simp only [applyA] at h
    split at h
    case _ hf hsd hpl => exact hf
    case _ => simp at h
  · intro st st' h
    simp only [applyA] at h
    split at h
    case _ hf hh => exact hf
    case _ => simp at h
  · intro st hinv tr st' hex e he
    obtain ⟨hinv', hmono⟩ := ttsInv_exec hinv hex
    have hd := hmono e he
    obtain ⟨h1, h2⟩ := dropped_not_synth hinv' hd
    exact ⟨hd, h1, h2⟩

/-- Witness for the amended C3 theorem at a concrete dropped entry and
a concrete continuation trace. -/
theorem c3_witness :
    (⟨5, 0⟩ : Entry) ∈ c3wFinal.dropped ∧
    (5 : Nat) ∉ c3wFinal.synthLog.map Entry.eid := by
  have h := c3_stale_suppressed_only_while_flag_set.2.2.2 c3wSt
    (by refine ⟨by decide, by decide, by decide⟩) [TTSAct.clearFlag] c3wFinal
    (by decide) ⟨5, 0⟩ (by decide)
  exact ⟨h.1, h.2.1⟩

/-- Claim C8: under any interleaving, every entry pending in the queue
when stop_action runs its flag-set / sd.stop / drain sequence is moved
to the dropped list and is never synthesized nor played afterwards
(its id never enters either ghost log), and right after the sequence
the queue is empty and no playback is active. -/
theorem c8_stop_drains_queue_and_aborts_playback :
    ∀ st : TTSState, TTSInv st → ∀ post st',
      execTTS st (TTSAct.setFlag :: TTSAct.abortPlay :: TTSAct.drain :: post) =
        some st' →
      (∀ e ∈ st.queue, e ∈ st'.dropped ∧
        e.eid ∉ st'.synthLog.map Entry.eid ∧
        e.eid ∉ st'.spokenLog.map Entry.eid) ∧
      ∃ st3, execTTS st [TTSAct.setFlag, TTSAct.abortPlay, TTSAct.drain] =
          some st3 ∧ st3.queue = [] ∧ st3.playing = none ∧
          execTTS st3 post = some st' := by
  intro st hinv post st' hex
  obtain ⟨st3, hex3, hq, hp, hd⟩ := stop_seq_exec st
  have hsplit : execTTS st
      ([TTSAct.setFlag, TTSAct.abortPlay, TTSAct.drain] ++ post) = some st' := hex
  rw [execTTS_append, hex3] at hsplit
  obtain ⟨hinv3, _⟩ := ttsInv_exec hinv hex3
  obtain ⟨hinv', hmono⟩ := ttsInv_exec hinv3 hsplit
  constructor
  · intro e he
    have he3 : e ∈ st3.dropped := by
      rw [hd]
      exact List.mem_append.mpr (Or.inr he)
    have he' := hmono e he3
    obtain ⟨h1, h2⟩ := dropped_not_synth hinv' he'
    exact ⟨he', h1, h2⟩
  · exact ⟨st3, hex3, hq, hp, hsplit⟩

/-- Witness for the C8 theorem: a stop with two queued entries and an
active playback, followed by the delayed flag clear. -/
theorem c8_stop_witness :
    (⟨1, 0⟩ : Entry) ∈ c8Final.dropped ∧
    (1 : Nat) ∉ c8Final.synthLog.map Entry.eid ∧
    (⟨2, 0⟩ : Entry) ∈ c8Final.dropped := by
  have h := c8_stop_drains_queue_and_aborts_playback c8St
    (by refine ⟨by decide, by decide, by decide⟩) [TTSAct.clearFlag] c8Final
    (by decide)
  refine ⟨(h.1 ⟨1, 0⟩ (by decide)).1, (h.1 ⟨1, 0⟩ (by decide)).2.1,
    (h.1 ⟨2, 0⟩ (by decide)).1⟩

/-- Claim C9: a synthesis or playback failure of one entry is reported
as an event of that entry alone, and the worker processes the entire
rest of the queue exactly as it would have: for every sentinel-free
prefix xs, entry outcome oc (including both failure modes) and suffix
ys, the worker's output decomposes as prefix events, this entry's
events, then the untouched processing of ys. -/
theorem c9_worker_survives_entry_failures :
    ∀ (xs ys : List QItem) (t : List Char) (oc : SpeakOutcome),
      (∀ i ∈ xs, i.content ≠ none) →
      ttsWorkerRun (xs ++ ⟨false, some t, oc⟩ :: ys) =
        ttsWorkerRun xs ++ speakTextModel t oc ++ ttsWorkerRun ys := by
  intro xs ys t oc hxs
  induction xs with
  | nil => simp [ttsWorkerRun]
  | cons x xs ih =>
    have hx : x.content ≠ none := hxs x (List.mem_cons_self x xs)
    rcases hc : x.content with _ | tx
    · exact absurd hc hx
    · have ihh := ih (fun i hi => hxs i (List.mem_cons_of_mem x hi))
      rcases hf : x.flagSet with _ | _
      · simp only [List.cons_append, ttsWorkerRun, hc, hf, List.append_eq]
        rw [ihh]
        simp
      · simp only [List.cons_append, ttsWorkerRun, hc, hf, List.append_eq]
        rw [ihh]
        simp

/-- Witness for the C9 theorem: a three-entry queue whose middle entry
fails to synthesize; the worker still speaks the third entry. -/
theorem c9_worker_witness :
    ttsWorkerRun [⟨false, some (strL ("a")), SpeakOutcome.ok⟩,
        ⟨false, some (strL ("b")), SpeakOutcome.synthFail⟩,
        ⟨false, some (strL ("c")), SpeakOutcome.ok⟩] =
      [WorkerEvent.synthesized (strL ("a")), WorkerEvent.played (strL ("a")),
        WorkerEvent.ttsGenError (strL ("b")),
        WorkerEvent.synthesized (strL ("c")),
        WorkerEvent.played (strL ("c"))] := by
  have h := c9_worker_survives_entry_failures
    [⟨false, some (strL ("a")), SpeakOutcome.ok⟩]
    [⟨false, some (strL ("c")), SpeakOutcome.ok⟩]
    (strL ("b")) SpeakOutcome.synthFail (by decide)
  rw [show ([⟨false, some (strL ("a")), SpeakOutcome.ok⟩,
      ⟨false, some (strL ("b")), SpeakOutcome.synthFail⟩,
      ⟨false, some (strL ("c")), SpeakOutcome.ok⟩] : List QItem) =
      [⟨false, some (strL ("a")), SpeakOutcome.ok⟩] ++
        ⟨false, some (strL ("b")), SpeakOutcome.synthFail⟩ ::
          [⟨false, some (strL ("c")), SpeakOutcome.ok⟩] from rfl, h]
  decide

theorem containsL_iff (l : List (List Char)) (x : List Char) :
    l.contains x = true ↔ x ∈ l :=
  List.elem_iff

set_option maxRecDepth 200000 in
/-- Claim C5, counterexample: with a pending system-action
confirmation, assistant.py treats "yes" (a member of the claimed
affirmative set) as an invalid reply that re-prompts and leaves the
pending state unchanged, treats "stop" (a member of the claimed
negative set) the same way, while JARVIS-PT2.py accepts "yes please" —
a phrase outside the claimed closed set — as an affirmative
window-close reply. -/
theorem c5_counterexample :
    (handleLocalCommand c5Env (strL ("yes"))).reply = some Reply.answerYesNo ∧
    (handleLocalCommand c5Env (strL ("yes"))).env = c5Env ∧
    (handleLocalCommand c5Env (strL ("stop"))).reply = some Reply.answerYesNo ∧
    (handleLocalCommand c5Env (strL ("stop"))).env = c5Env ∧
    (p2ConfirmStage (some (strL ("Notepad"))) none (strL ("yes please"))).reply =
      some (Reply.closedWindow (strL ("Notepad"))) := by
  refine ⟨rfl, rfl, rfl, rfl, rfl⟩

/-- Claim C5 (amended): with a pending system action, assistant.py
classifies the utterance against its own tuples — affirmative
("yes jarvis", "y", "yeah", "sure", "ok", "confirm") and negative
("no", "n", "nah", "cancel") — executing and clearing on an
affirmative, clearing without effect on a negative, and otherwise
re-prompting with the pending state and environment unchanged instead
of falling through to any other routing rule. -/
theorem c5_system_confirmation_word_sets :
    ∀ (env : RouterEnv) (a : SysAction) (cmd : List Char),
      env.pendingCloseWindow = none → env.pendingSystemAction = some a →
      (lowerStr (pyStrip cmd) ∈ affirmSysA →
        (handleLocalCommand env cmd).reply = some (Reply.sysExecuted a) ∧
        (handleLocalCommand env cmd).env.pendingSystemAction = none ∧
        (handleLocalCommand env cmd).effects =
          [Effect.osSystem (sysActionCmd a)]) ∧
      (lowerStr (pyStrip cmd) ∉ affirmSysA → lowerStr (pyStrip cmd) ∈ negSysA →
        (handleLocalCommand env cmd).reply = some (Reply.sysCancelled a) ∧
        (handleLocalCommand env cmd).env.pendingSystemAction = none ∧
        (handleLocalCommand env cmd).effects = []) ∧
      (lowerStr (pyStrip cmd) ∉ affirmSysA → lowerStr (pyStrip cmd) ∉ negSysA →
        (handleLocalCommand env cmd).reply = some Reply.answerYesNo ∧
        (handleLocalCommand env cmd).env = env ∧
        (handleLocalCommand env cmd).effects = []) := by
  intro env a cmd hclose hsys
  refine ⟨?_, ?_, ?_⟩
  · intro h1
    have hcon : affirmSysA.contains (lowerStr (pyStrip cmd)) = true :=
      (containsL_iff _ _).mpr h1
    refine ⟨?_, ?_, ?_⟩ <;>
      simp only [handleLocalCommand, hclose, hsys, hcon, if_true]
  · intro h1 h2
    have hcon : affirmSysA.contains (lowerStr (pyStrip cmd)) = false := by
      rcases hval : affirmSysA.contains (lowerStr (pyStrip cmd)) with _ | _
      · rfl
      · exact absurd ((containsL_iff _ _).mp hval) h1
    have hcon2 : negSysA.contains (lowerStr (pyStrip cmd)) = true :=
      (containsL_iff _ _).mpr h2
    refine ⟨?_, ?_, ?_⟩ <;>
      simp only [handleLocalCommand, hclose, hsys, hcon, hcon2,
        Bool.false_eq_true, if_false, if_true]
  · intro h1 h2
    have hcon : affirmSysA.contains (lowerStr (pyStrip cmd)) = false := by
      rcases hval : affirmSysA.contains (lowerStr (pyStrip cmd)) with _ | _
      · rfl
      · exact absurd ((containsL_iff _ _).mp hval) h1
    have hcon2 : negSysA.contains (lowerStr (pyStrip cmd)) = false := by
      rcases hval : negSysA.contains (lowerStr (pyStrip cmd)) with _ | _
      · rfl
      · exact absurd ((containsL_iff _ _).mp hval) h2
    refine ⟨?_, ?_, ?_⟩ <;>
      simp only [handleLocalCommand, hclose, hsys, hcon, hcon2,
        Bool.false_eq_true, if_false]

set_option maxRecDepth 200000 in
/-- Witness for the amended C5 theorem at the concrete replies
"yes jarvis" and "maybe". -/
theorem c5_confirmation_witness :
    (handleLocalCommand c5Env (strL ("yes jarvis"))).reply =
      some (Reply.sysExecuted SysAction.shutdown) ∧
    (handleLocalCommand c5Env (strL ("maybe"))).reply = some Reply.answerYesNo ∧
    (handleLocalCommand c5Env (strL ("maybe"))).env = c5Env := by
  have h := c5_system_confirmation_word_sets c5Env SysAction.shutdown (strL ("yes jarvis")) rfl rfl
  have h2 := c5_system_confirmation_word_sets c5Env SysAction.shutdown (strL ("maybe")) rfl rfl
  refine ⟨(h.1 (by decide)).1, ?_, ?_⟩
  · exact (h2.2.2 (by decide) (by decide)).1
  · exact (h2.2.2 (by decide) (by decide)).2.1

set_option maxRecDepth 400000 in
/-- Claim C6, counterexample: in assistant.py, after "shutdown" has
created the pending SystemAction confirmation, the reply "yes" does
not run the shutdown action and does not clear the slot — it is
classified invalid, re-prompts, and leaves the machine awaiting
confirmation. -/
theorem c6_counterexample :
    (handleLocalCommand c6Pend (strL ("yes"))).reply = some Reply.answerYesNo ∧
    (handleLocalCommand c6Pend (strL ("yes"))).env = c6Pend ∧
    (handleLocalCommand c6Pend (strL ("yes"))).effects = [] := by
  exact ⟨rfl, rfl, rfl⟩

set_option maxRecDepth 400000 in
/-- Claim C6 (amended): the confirmation state machine behaves as
claimed once the affirmative words are the source words: "shutdown"
creates the pending SystemAction; the assistant.py affirmative
"yes jarvis" (respectively the JARVIS-PT2.py affirmative "yes")
executes the shutdown command and clears to idle; "no" clears to idle
with no side effect; the invalid reply "maybe" re-prompts and stays in
AwaitingConfirmation. -/
theorem c6_confirmation_fsm_transitions :
    (handleLocalCommand c6Idle (strL ("shutdown"))).reply =
      some (Reply.confirmSys SysAction.shutdown) ∧
    (handleLocalCommand c6Idle (strL ("shutdown"))).env = c6Pend ∧
    (handleLocalCommand c6Pend (strL ("yes jarvis"))).reply =
      some (Reply.sysExecuted SysAction.shutdown) ∧
    (handleLocalCommand c6Pend (strL ("yes jarvis"))).env = c6Idle ∧
    (handleLocalCommand c6Pend (strL ("yes jarvis"))).effects =
      [Effect.osSystem (strL ("shutdown /s /t 5"))] ∧
    (handleLocalCommand c6Pend (strL ("no"))).reply =
      some (Reply.sysCancelled SysAction.shutdown) ∧
    (handleLocalCommand c6Pend (strL ("no"))).env = c6Idle ∧
    (handleLocalCommand c6Pend (strL ("no"))).effects = [] ∧
    (handleLocalCommand c6Pend (strL ("maybe"))).reply = some Reply.answerYesNo ∧
    (handleLocalCommand c6Pend (strL ("maybe"))).env = c6Pend ∧
    (p2ConfirmStage none (some SysAction.shutdown) (strL ("yes"))).reply =
      some (Reply.sysExecuted SysAction.shutdown) ∧
    (p2ConfirmStage none (some SysAction.shutdown) (strL ("yes"))).pendingSys =
      none ∧
    (p2ConfirmStage none (some SysAction.shutdown) (strL ("yes"))).effects =
      [Effect.osSystem (strL ("shutdown /s /t 5"))] := by
  refine ⟨rfl, rfl, rfl, rfl, rfl, rfl, rfl, rfl, rfl, rfl, rfl, rfl, rfl⟩

set_option maxRecDepth 1000000 in
/-- Claim C7, counterexample: the utterance "create a file called
lights on" matches the file-operations rule ("create a file" is a
substring), yet assistant.py answers with the ESP32 light command —
the hardware/IPC rules are checked before the file-operation rules,
not after the mouse/keyboard block as the claimed priority order
states. -/
theorem c7_counterexample :
    (handleLocalCommand c7Env (strL ("create a file called lights on"))).reply =
      some Reply.lightOn ∧
    (handleLocalCommand c7Env (strL ("create a file called lights on"))).effects =
      [Effect.espSend (strL ("LIGHT_ON"))] ∧
    (handleLocalCommand c7Env
        (strL ("create a file called lights on"))).env.currentFile = none ∧
    containsSub (lowerStr (strL ("create a file called lights on")))
      (strL ("create a file")) = true := by
  exact ⟨rfl, rfl, rfl, rfl⟩

/-- Claim C7 (amended): with no pending confirmation, rules are
checked in the fixed source order time, date, system-action gating,
lock/unlock/lights (hardware and IPC), file operations, window
management, tabs, volume, brightness, play-on-site, open-site with its
generic fallback, mouse, keyboard, scroll, screenshot, whatsapp,
system info, then the free-form local-command table, and the first
match wins.  In particular every utterance containing "time" yields
the time result, and every utterance containing "light" and "on" that
clears the earlier gating and lock/unlock rules yields the light
command even when it also matches the later create-a-file rule. -/
theorem c7_time_first_and_hardware_before_file_rules :
    (∀ (env : RouterEnv) (cmd : List Char),
      env.pendingCloseWindow = none → env.pendingSystemAction = none →
      containsSub (lowerStr (pyStrip cmd)) (strL ("time")) = true →
      (handleLocalCommand env cmd).reply = some Reply.timeIs) ∧
    (∀ (env : RouterEnv) (cmd : List Char),
      env.pendingCloseWindow = none → env.pendingSystemAction = none →
      containsSub (lowerStr (pyStrip cmd)) (strL ("time")) = false →
      containsSub (lowerStr (pyStrip cmd)) (strL ("date")) = false →
      containsSub (lowerStr (pyStrip cmd)) (strL ("shutdown")) = false →
      containsSub (lowerStr (pyStrip cmd)) (strL ("restart")) = false →
      containsSub (lowerStr (pyStrip cmd)) (strL ("log off")) = false →
      containsSub (lowerStr (pyStrip cmd)) (strL ("lock my pc")) = false →
      containsSub (lowerStr (pyStrip cmd)) (strL ("lock laptop")) = false →
      containsSub (lowerStr (pyStrip cmd)) (strL ("unlock my pc")) = false →
      containsSub (lowerStr (pyStrip cmd)) (strL ("unlock laptop")) = false →
      containsSub (lowerStr (pyStrip cmd)) (strL ("unlock my laptop")) = false →
      containsSub (lowerStr (pyStrip cmd)) (strL ("login my pc")) = false →
      containsSub (lowerStr (pyStrip cmd)) (strL ("login my laptop")) = false →
      containsSub (lowerStr (pyStrip cmd)) (strL ("log in my pc")) = false →
      containsSub (lowerStr (pyStrip cmd)) (strL ("log in my laptop")) = false →
      containsSub (lowerStr (pyStrip cmd)) (strL ("light")) = true →
      containsSub (lowerStr (pyStrip cmd)) (strL ("on")) = true →
      (handleLocalCommand env cmd).reply = some Reply.lightOn) := by
  constructor
  · intro env cmd hclose hsys ht
    simp only [handleLocalCommand, hclose, hsys, routeRules, ht, if_true]
  · intro env cmd hclose hsys h1 h2 h3 h4 h5 h6 h7 h8 h9 h10 h11 h12 h13 h14
      hlight hon
    simp only [handleLocalCommand, hclose, hsys, routeRules, h1, h2, h3, h4,
      h5, h6, h7, h8, h9, h10, h11, h12, h13, h14, hlight, hon,
      Bool.or_self, Bool.false_or, Bool.or_false, Bool.and_self,
      Bool.true_and, Bool.and_true, Bool.false_eq_true, if_false, if_true]
    rcases env.espOpen with _ | _ <;> rfl

set_option maxRecDepth 1000000 in
/-- Witness for the amended C7 theorem at "what time is it" and
"create a file called lights on". -/
theorem c7_priority_witness :
    (handleLocalCommand c7Env (strL ("what time is it"))).reply =
      some Reply.timeIs ∧
    (handleLocalCommand c7Env (strL ("create a file called lights on"))).reply =
      some Reply.lightOn := by
  refine ⟨c7_time_first_and_hardware_before_file_rules.1 c7Env (strL ("what time is it")) rfl rfl (by decide),
    c7_time_first_and_hardware_before_file_rules.2 c7Env (strL ("create a file called lights on")) rfl rfl
      (by decide) (by decide) (by decide) (by decide) (by decide) (by decide)
      (by decide) (by decide) (by decide) (by decide) (by decide) (by decide)
      (by decide) (by decide) (by decide) (by decide)⟩

/-- Witness for the C10 theorem: a system message in the middle of the
input list is persisted ahead of the user and assistant messages. -/
theorem c10_save_memory_witness :
    saveMemory [userMsg (strL ("u1")), sysMsg (strL ("s")),
        asstMsg (strL ("a1"))] =
      [sysMsg (strL ("s")), userMsg (strL ("u1")), asstMsg (strL ("a1"))] ∧
    (sysMsg (strL ("s"))).role = Role.system := by
  have h := c10_save_memory_normalizes
    [userMsg (strL ("u1")), sysMsg (strL ("s")), asstMsg (strL ("a1"))]
  refine ⟨?_, h.2.1 (sysMsg (strL ("s"))) (by decide)⟩
  rw [h.1]
  decide
